import Mathlib

/-!
Verification of core components of the radixdlt-scrypto engine against its
natural-language specification.  The Rust sources are shallowly embedded:

* machine integers are modelled as `Nat` (resp. `Int` for `i64`), with the
  wrap-around of unchecked Rust arithmetic made explicit through `% 2^w`
  helpers, and the `checked_*` functions returning `Option`;
* panics (`unwrap`/`expect` on `None`) are modelled by `Option`-returning
  functions, `none` standing for the panic;
* fallible Rust functions returning `Result` are modelled with `Except`
  when an error leaves the receiver untouched (early return), and with a
  `state × Option error` pair when the Rust code can mutate the receiver
  before returning an error.

Each subsystem lives in its own namespace:
`TimeI` (radix-common/src/time/instant.rs),
`FeeRes` (radix-engine/src/system/kernel_modules/costing/fee_reserve.rs),
`Track` (radix-engine/src/track/track.rs),
`NFB` (radix-engine/src/blueprints/resource/non_fungible/non_fungible_bucket.rs),
`SysGlob` (radix-engine/src/system/system.rs).
-/

namespace TimeI

/-- Modelled from the spec: `SECONDS_IN_A_DAY` from `radix-common/src/time/constants.rs`
(the constants file itself is not among the provided sources); the spec fixes
86400 seconds per day. -/
def SECONDS_IN_A_DAY : Int := 86400

/-- Modelled from the spec: `SECONDS_IN_AN_HOUR` (3600 seconds per hour). -/
def SECONDS_IN_AN_HOUR : Int := 3600

/-- Modelled from the spec: `SECONDS_IN_A_MINUTE` (60 seconds per minute). -/
def SECONDS_IN_A_MINUTE : Int := 60

/-- Smallest `i64` value. -/
def I64_MIN : Int := -(2 ^ 63)

/-- Largest `i64` value. -/
def I64_MAX : Int := 2 ^ 63 - 1

/-- `x` is representable as an `i64`. -/
def i64InRange (x : Int) : Prop := I64_MIN ≤ x ∧ x ≤ I64_MAX

instance (x : Int) : Decidable (i64InRange x) := by
  unfold i64InRange; infer_instance

/-- Rust `i64::checked_mul`. -/
def checkedMulI64 (a b : Int) : Option Int :=
  if i64InRange (a * b) then some (a * b) else none

/-- Rust `i64::checked_add`. -/
def checkedAddI64 (a b : Int) : Option Int :=
  if i64InRange (a + b) then some (a + b) else none

/-- `Instant` from `radix-common/src/time/instant.rs`: a Unix timestamp in
seconds (an `i64` in the source, an `Int` here). -/
structure Instant where
  seconds_since_unix_epoch : Int
deriving Repr, DecidableEq

namespace Instant

/-- `Instant::new`. -/
def new (seconds_since_unix_epoch : Int) : Instant :=
  { seconds_since_unix_epoch }

/-- `Instant::add_days`. -/
def add_days (self : Instant) (days_to_add : Int) : Option Instant :=
  (checkedMulI64 days_to_add SECONDS_IN_A_DAY).bind
    (fun to_add => checkedAddI64 self.seconds_since_unix_epoch to_add) |>.map new

/-- `Instant::add_hours`. -/
def add_hours (self : Instant) (hours_to_add : Int) : Option Instant :=
  (checkedMulI64 hours_to_add SECONDS_IN_AN_HOUR).bind
    (fun to_add => checkedAddI64 self.seconds_since_unix_epoch to_add) |>.map new

/-- `Instant::add_minutes`. -/
def add_minutes (self : Instant) (minutes_to_add : Int) : Option Instant :=
  (checkedMulI64 minutes_to_add SECONDS_IN_A_MINUTE).bind
    (fun to_add => checkedAddI64 self.seconds_since_unix_epoch to_add) |>.map new

/-- `Instant::add_seconds`. -/
def add_seconds (self : Instant) (seconds_to_add : Int) : Option Instant :=
  (checkedAddI64 self.seconds_since_unix_epoch seconds_to_add).map new

end Instant

end TimeI

namespace TimeI

/-- Helper: characterization of the `checked_mul`-then-`checked_add` pattern
shared by `add_days`/`add_hours`/`add_minutes`. -/
theorem mulAddChar (s d c : Int) :
    (((checkedMulI64 d c).bind (fun t => checkedAddI64 s t) |>.map Instant.new) = none ↔
      ¬ i64InRange (d * c) ∨ ¬ i64InRange (s + d * c)) ∧
    (∀ r, ((checkedMulI64 d c).bind (fun t => checkedAddI64 s t) |>.map Instant.new) = some r →
      r.seconds_since_unix_epoch = s + d * c) := by
  unfold checkedMulI64 checkedAddI64
  split_ifs <;>
    simp_all [Instant.new]

/-- C10: `Instant::add_days`, `add_hours`, `add_minutes` and `add_seconds`
never wrap: each returns `none` exactly when converting the argument to
seconds (86400/3600/60 seconds per day/hour/minute) or adding it to
`seconds_since_unix_epoch` leaves the `i64` range, and otherwise returns
`some` of an `Instant` holding the exact mathematical sum. -/
theorem C10_instant_add_never_wraps (i : TimeI.Instant) (x : Int) :
    (i.add_days x = none ↔
      ¬ i64InRange (x * 86400) ∨ ¬ i64InRange (i.seconds_since_unix_epoch + x * 86400)) ∧
    (∀ r, i.add_days x = some r →
      r.seconds_since_unix_epoch = i.seconds_since_unix_epoch + x * 86400) ∧
    (i.add_hours x = none ↔
      ¬ i64InRange (x * 3600) ∨ ¬ i64InRange (i.seconds_since_unix_epoch + x * 3600)) ∧
    (∀ r, i.add_hours x = some r →
      r.seconds_since_unix_epoch = i.seconds_since_unix_epoch + x * 3600) ∧
    (i.add_minutes x = none ↔
      ¬ i64InRange (x * 60) ∨ ¬ i64InRange (i.seconds_since_unix_epoch + x * 60)) ∧
    (∀ r, i.add_minutes x = some r →
      r.seconds_since_unix_epoch = i.seconds_since_unix_epoch + x * 60) ∧
    (i.add_seconds x = none ↔ ¬ i64InRange (i.seconds_since_unix_epoch + x)) ∧
    (∀ r, i.add_seconds x = some r →
      r.seconds_since_unix_epoch = i.seconds_since_unix_epoch + x) := by
  refine ⟨(mulAddChar _ _ _).1, (mulAddChar _ _ _).2, (mulAddChar _ _ _).1,
    (mulAddChar _ _ _).2, (mulAddChar _ _ _).1, (mulAddChar _ _ _).2, ?_, ?_⟩
  · unfold Instant.add_seconds checkedAddI64
    split_ifs <;> simp_all
  · intro r
    unfold Instant.add_seconds checkedAddI64
    split_ifs <;> simp_all [Instant.new]
    rintro rfl
    rfl

/-- Witness for C10 at a concrete input. -/
theorem C10_instant_add_never_wraps_witness :
    TimeI.Instant.add_days ⟨5⟩ 2 = some ⟨172805⟩ ∧
    (172805 : Int) = 5 + 2 * 86400 :=
  ⟨by decide, (C10_instant_add_never_wraps ⟨5⟩ 2).2.1 ⟨172805⟩ (by decide)⟩

end TimeI

namespace FeeRes

/-- `2^32`, the modulus of Rust `u32` arithmetic. -/
def U32M : Nat := 2 ^ 32

/-- `2^128`, the modulus of Rust `u128` arithmetic. -/
def U128M : Nat := 2 ^ 128

/-- Unchecked (wrapping) `u32` addition, e.g. `self.execution[i] += ...`. -/
def u32add (a b : Nat) : Nat := (a + b) % U32M

/-- Unchecked (wrapping) `u128` addition, e.g. `self.xrd_owed += ...`. -/
def u128add (a b : Nat) : Nat := (a + b) % U128M

/-- Unchecked (wrapping) `u128` multiplication, e.g. `price * cost_units as u128`. -/
def u128mul (a b : Nat) : Nat := (a * b) % U128M

/-- `AbortReason` (only the variant used by the fee reserve). -/
inductive AbortReason
  | ConfiguredAbortTriggeredOnFeeLoanRepayment
deriving Repr, DecidableEq

/-- `FeeReserveError` from `fee_reserve.rs`. -/
inductive FeeReserveError
  | InsufficientBalance
  | Overflow
  | LimitExceeded
  | LoanRepaymentFailed
  | NotXrd
  | Abort (reason : AbortReason)
deriving Repr, DecidableEq

/-- `CostingReason` from `fee_reserve.rs` (13 variants, `COUNT = 13`). -/
inductive CostingReason
  | TxBaseCost
  | TxPayloadCost
  | TxSignatureVerification
  | Invoke
  | DropNode
  | CreateNode
  | LockSubstate
  | ReadSubstate
  | WriteSubstate
  | DropLock
  | InstantiateWasm
  | RunWasm
  | RunNative
deriving Repr, DecidableEq

/-- `reason as usize`: the discriminant of a `CostingReason`. -/
def CostingReason.toIdx : CostingReason → Nat
  | .TxBaseCost => 0
  | .TxPayloadCost => 1
  | .TxSignatureVerification => 2
  | .Invoke => 3
  | .DropNode => 4
  | .CreateNode => 5
  | .LockSubstate => 6
  | .ReadSubstate => 7
  | .WriteSubstate => 8
  | .DropLock => 9
  | .InstantiateWasm => 10
  | .RunWasm => 11
  | .RunNative => 12

/-- `CostingReason::COUNT`. -/
def COSTING_COUNT : Nat := 13

/-- `RoyaltyReceiver` from `fee_reserve.rs` (addresses and ids are opaque). -/
inductive RoyaltyReceiver
  | Package (address : Nat) (id : Nat)
  | Component (address : Nat) (id : Nat)
deriving Repr, DecidableEq

/-- `RADIX_TOKEN`, the XRD resource address (opaque model value). -/
def RADIX_TOKEN : Nat := 0

/-- A fungible `Resource` as used by `lock_fee`: its resource address and its
amount in `u128` subunits (the source's `Decimal` converted via
`decimal_to_u128`). -/
structure Resource where
  resource_address : Nat
  amount : Nat
deriving Repr, DecidableEq

/-- `SystemLoanFeeReserve` from `fee_reserve.rs`.  `u32` fields and `u128`
fields are `Nat`s; the two fixed-size `[u32; CostingReason::COUNT]` arrays are
13-element lists; the royalty `HashMap` is an association list. -/
structure SystemLoanFeeReserve where
  cost_unit_price : Nat
  tip_percentage : Nat
  payments : List (Nat × Resource × Bool)
  remaining_loan_balance : Nat
  remaining_xrd_balance : Nat
  xrd_owed : Nat
  total_cost_units_consumed : Nat
  cost_unit_limit : Nat
  execution_deferred : List Nat
  execution_deferred_total : Nat
  execution : List Nat
  royalty : List (RoyaltyReceiver × Nat)
  effective_execution_price : Nat
  effective_royalty_price : Nat
  abort_when_loan_repaid : Bool
deriving Repr, DecidableEq

/-- `checked_add` helper from `fee_reserve.rs` (`u32::checked_add`,
`None` mapped to the `Overflow` error at use sites). -/
def checked_add (a b : Nat) : Option Nat :=
  if a + b < U32M then some (a + b) else none

/-- `checked_multiply` from `fee_reserve.rs`: `u32::try_from(multiplier)`
then `checked_mul`. -/
def checked_multiply (amount : Nat) (multiplier : Nat) : Option Nat :=
  if multiplier < U32M then
    if multiplier * amount < U32M then some (multiplier * amount) else none
  else none

/-- `checked_assign_add` applied to an array slot: read `l[i]`, checked-add,
assign on success. -/
def checkedAddAt (l : List Nat) (i n : Nat) : Option (List Nat) :=
  match checked_add (l.getD i 0) n with
  | some s => some (l.set i s)
  | none => none

/-- Royalty map read: the entry's value, or 0 when absent (`or_default`). -/
def royaltyGet (l : List (RoyaltyReceiver × Nat)) (r : RoyaltyReceiver) : Nat :=
  match l.find? (fun p => p.1 = r) with
  | some p => p.2
  | none => 0

/-- Royalty map write: replace the entry, or append it when absent
(`HashMap::entry(..).or_default()` followed by an assignment). -/
def royaltySet (l : List (RoyaltyReceiver × Nat)) (r : RoyaltyReceiver) (v : Nat) :
    List (RoyaltyReceiver × Nat) :=
  if (l.find? (fun p => p.1 = r)).isSome then
    l.map (fun p => if p.1 = r then (p.1, v) else p)
  else l ++ [(r, v)]

/-- `HashMap::entry(..).or_default()` alone: ensure the entry exists (this is
the state left behind when the subsequent `checked_assign_add` overflows). -/
def royaltyEnsure (l : List (RoyaltyReceiver × Nat)) (r : RoyaltyReceiver) :
    List (RoyaltyReceiver × Nat) :=
  if (l.find? (fun p => p.1 = r)).isSome then l else l ++ [(r, 0)]

namespace SystemLoanFeeReserve

/-- `SystemLoanFeeReserve::new`. -/
def new (cost_unit_price tip_percentage cost_unit_limit system_loan : Nat)
    (abort_when_loan_repaid : Bool) : SystemLoanFeeReserve :=
  { cost_unit_price := cost_unit_price
    tip_percentage := tip_percentage
    payments := []
    remaining_loan_balance := system_loan
    remaining_xrd_balance := 0
    xrd_owed := 0
    total_cost_units_consumed := 0
    cost_unit_limit := cost_unit_limit
    execution_deferred := List.replicate COSTING_COUNT 0
    execution_deferred_total := 0
    execution := List.replicate COSTING_COUNT 0
    royalty := []
    effective_execution_price :=
      u128add cost_unit_price (u128mul cost_unit_price tip_percentage / 100)
    effective_royalty_price := cost_unit_price
    abort_when_loan_repaid := abort_when_loan_repaid }

/-- `execution_price()`. -/
def execution_price (self : SystemLoanFeeReserve) : Nat := self.effective_execution_price

/-- `royalty_price()`. -/
def royalty_price (self : SystemLoanFeeReserve) : Nat := self.effective_royalty_price

/-- `fully_repaid()`. -/
def fully_repaid (self : SystemLoanFeeReserve) : Bool :=
  self.xrd_owed == 0 && self.execution_deferred_total == 0

/-- `SystemLoanFeeReserve::consume`.  Every error return in the source happens
before any field is mutated, so `Except` (error = receiver untouched) is a
faithful model.  The `+=`/`-=` updates in the success branches are guarded by
the preceding checks and cannot wrap, hence plain `Nat` arithmetic for them;
the `u128` products and sums wrap explicitly. -/
def consume (self : SystemLoanFeeReserve) (cost_units_to_consume : Nat) (price : Nat) :
    Except FeeReserveError SystemLoanFeeReserve :=
  match checked_add self.total_cost_units_consumed cost_units_to_consume with
  | none => .error .Overflow
  | some sum =>
    if sum > self.cost_unit_limit then
      .error .LimitExceeded
    else if self.remaining_loan_balance ≥ cost_units_to_consume then
      .ok { self with
        xrd_owed := u128add self.xrd_owed (u128mul price cost_units_to_consume)
        remaining_loan_balance := self.remaining_loan_balance - cost_units_to_consume
        total_cost_units_consumed := self.total_cost_units_consumed + cost_units_to_consume }
    else if self.remaining_loan_balance = 0 then
      let from_balance := u128mul price cost_units_to_consume
      if self.remaining_xrd_balance < from_balance then
        .error .InsufficientBalance
      else
        .ok { self with
          remaining_xrd_balance := self.remaining_xrd_balance - from_balance
          total_cost_units_consumed := self.total_cost_units_consumed + cost_units_to_consume }
    else
      let from_balance := u128mul price (cost_units_to_consume - self.remaining_loan_balance)
      if self.remaining_xrd_balance < from_balance then
        .error .InsufficientBalance
      else
        .ok { self with
          xrd_owed := u128add self.xrd_owed (u128mul price self.remaining_loan_balance)
          remaining_loan_balance := 0
          remaining_xrd_balance := self.remaining_xrd_balance - from_balance
          total_cost_units_consumed := self.total_cost_units_consumed + cost_units_to_consume }

/-- The summation loop at the top of `repay_all` (`checked_assign_add` of every
deferred slot into `sum`). -/
def deferredSum (l : List Nat) : Option Nat :=
  l.foldlM (fun acc v => checked_add acc v) 0

/-- `SystemLoanFeeReserve::repay_all`.  The result pairs the final receiver
state with an optional error, because the source can mutate `self` before
returning an error (`LoanRepaymentFailed` leaves the deferred charges already
moved; `Abort` is raised after a successful repayment). -/
def repay_all (self : SystemLoanFeeReserve) :
    SystemLoanFeeReserve × Option FeeReserveError :=
  match deferredSum self.execution_deferred with
  | none => (self, some .Overflow)
  | some sum =>
    match consume self sum self.execution_price with
    | .error e => (self, some e)
    | .ok s1 =>
      let s2 := { s1 with
        execution := (s1.execution.zip s1.execution_deferred).map fun p => u32add p.1 p.2
        execution_deferred := List.replicate COSTING_COUNT 0
        execution_deferred_total := 0 }
      if s2.remaining_xrd_balance < s2.xrd_owed then
        (s2, some .LoanRepaymentFailed)
      else
        let s3 := { s2 with
          remaining_xrd_balance := s2.remaining_xrd_balance - s2.xrd_owed
          xrd_owed := 0 }
        if s3.abort_when_loan_repaid then
          (s3, some (.Abort .ConfiguredAbortTriggeredOnFeeLoanRepayment))
        else (s3, none)

/-- `PreExecutionFeeReserve::consume_deferred`. -/
def consume_deferred (self : SystemLoanFeeReserve) (amount multiplier : Nat)
    (reason : CostingReason) : SystemLoanFeeReserve × Option FeeReserveError :=
  if amount = 0 then (self, none)
  else
    match checked_multiply amount multiplier with
    | none => (self, some .Overflow)
    | some units_consumed =>
      match checkedAddAt self.execution_deferred reason.toIdx units_consumed with
      | none => (self, some .Overflow)
      | some d =>
        let s1 := { self with execution_deferred := d }
        match checked_add s1.execution_deferred_total units_consumed with
        | none => (s1, some .Overflow)
        | some t => ({ s1 with execution_deferred_total := t }, none)

/-- `ExecutionFeeReserve::consume_execution`. -/
def consume_execution (self : SystemLoanFeeReserve) (cost_units_to_consume : Nat)
    (reason : CostingReason) : SystemLoanFeeReserve × Option FeeReserveError :=
  if cost_units_to_consume = 0 then (self, none)
  else
    match consume self cost_units_to_consume self.execution_price with
    | .error e => (self, some e)
    | .ok s1 =>
      match checkedAddAt s1.execution reason.toIdx cost_units_to_consume with
      | none => (s1, some .Overflow)
      | some ex =>
        let s2 := { s1 with execution := ex }
        if s2.remaining_loan_balance = 0 && !s2.fully_repaid then repay_all s2
        else (s2, none)

/-- `ExecutionFeeReserve::consume_royalty`.  NOTE: the source charges the
royalty cost units through `self.consume(amount.into(), self.execution_price())`,
i.e. at the tip-inclusive effective execution price, even though
`effective_royalty_price` exists and `finalize` prices royalties with it. -/
def consume_royalty (self : SystemLoanFeeReserve) (receiver : RoyaltyReceiver)
    (amount : Nat) : SystemLoanFeeReserve × Option FeeReserveError :=
  if amount = 0 then (self, none)
  else
    match consume self amount self.execution_price with
    | .error e => (self, some e)
    | .ok s1 =>
      match checked_add (royaltyGet s1.royalty receiver) amount with
      | none => ({ s1 with royalty := royaltyEnsure s1.royalty receiver }, some .Overflow)
      | some v =>
        let s2 := { s1 with royalty := royaltySet s1.royalty receiver v }
        if s2.remaining_loan_balance = 0 && !s2.fully_repaid then repay_all s2
        else (s2, none)

/-- `ExecutionFeeReserve::consume_multiplied_execution`. -/
def consume_multiplied_execution (self : SystemLoanFeeReserve)
    (cost_units_per_multiple multiplier : Nat) (reason : CostingReason) :
    SystemLoanFeeReserve × Option FeeReserveError :=
  if multiplier = 0 then (self, none)
  else
    match checked_multiply cost_units_per_multiple multiplier with
    | none => (self, some .Overflow)
    | some units => consume_execution self units reason

/-- `ExecutionFeeReserve::lock_fee`.  Returns the updated reserve, the optional
error, and the (emptied) resource handed back to the caller. -/
def lock_fee (self : SystemLoanFeeReserve) (vault_id : Nat) (fee : Resource)
    (contingent : Bool) :
    (SystemLoanFeeReserve × Option FeeReserveError) × Resource :=
  if fee.resource_address ≠ RADIX_TOKEN then ((self, some .NotXrd), fee)
  else
    let s1 :=
      if !contingent then
        { self with remaining_xrd_balance := u128add self.remaining_xrd_balance fee.amount }
      else self
    let taken : Resource := { resource_address := fee.resource_address, amount := fee.amount }
    ((({ s1 with payments := s1.payments ++ [(vault_id, taken, contingent)] }), none),
      { fee with amount := 0 })

end SystemLoanFeeReserve

end FeeRes

namespace FeeRes

open SystemLoanFeeReserve

/-- C5: successful consumption of `n` cost units at price `p`:
while the loan covers `n`, `xrd_owed` grows by `n*p` and the loan shrinks by
`n`; with the loan exhausted, `remaining_xrd_balance` pays `n*p` (failing with
`InsufficientBalance`, state untouched, when it cannot); otherwise the loan is
drained first (its part added to `xrd_owed`) and the rest is paid from the
balance.  The side conditions keep the `u32`/`u128` arithmetic away from its
wrap-around points. -/
theorem C5_consume_loan_then_balance (s : SystemLoanFeeReserve) (n p : Nat)
    (hc : s.total_cost_units_consumed + n < U32M)
    (hl : s.total_cost_units_consumed + n ≤ s.cost_unit_limit) :
    (n ≤ s.remaining_loan_balance → p * n < U128M → s.xrd_owed + p * n < U128M →
      consume s n p = .ok { s with
        xrd_owed := s.xrd_owed + p * n
        remaining_loan_balance := s.remaining_loan_balance - n
        total_cost_units_consumed := s.total_cost_units_consumed + n }) ∧
    (s.remaining_loan_balance = 0 → s.remaining_loan_balance < n → p * n < U128M →
      s.remaining_xrd_balance < p * n →
      consume s n p = .error .InsufficientBalance) ∧
    (s.remaining_loan_balance = 0 → s.remaining_loan_balance < n → p * n < U128M →
      p * n ≤ s.remaining_xrd_balance →
      consume s n p = .ok { s with
        remaining_xrd_balance := s.remaining_xrd_balance - p * n
        total_cost_units_consumed := s.total_cost_units_consumed + n }) ∧
    (0 < s.remaining_loan_balance → s.remaining_loan_balance < n →
      p * (n - s.remaining_loan_balance) < U128M →
      p * s.remaining_loan_balance < U128M →
      s.xrd_owed + p * s.remaining_loan_balance < U128M →
      (s.remaining_xrd_balance < p * (n - s.remaining_loan_balance) →
        consume s n p = .error .InsufficientBalance) ∧
      (p * (n - s.remaining_loan_balance) ≤ s.remaining_xrd_balance →
        consume s n p = .ok { s with
          xrd_owed := s.xrd_owed + p * s.remaining_loan_balance
          remaining_loan_balance := 0
          remaining_xrd_balance :=
            s.remaining_xrd_balance - p * (n - s.remaining_loan_balance)
          total_cost_units_consumed := s.total_cost_units_consumed + n })) := by
  have hadd : checked_add s.total_cost_units_consumed n
      = some (s.total_cost_units_consumed + n) := by
    simp [checked_add, hc]
  refine ⟨?_, ?_, ?_, ?_⟩
  · intro h1 h2 h3
    simp only [consume, hadd, u128mul, u128add, Nat.mod_eq_of_lt h2,
      Nat.mod_eq_of_lt h3]
    rw [if_neg (by omega), if_pos (by omega)]
  · intro h1 h2 h3 h4
    simp only [consume, hadd, u128mul, Nat.mod_eq_of_lt h3]
    rw [if_neg (by omega), if_neg (by omega), if_pos (by omega), if_pos h4]
  · intro h1 h2 h3 h4
    simp only [consume, hadd, u128mul, Nat.mod_eq_of_lt h3]
    rw [if_neg (by omega), if_neg (by omega), if_pos (by omega), if_neg (by omega)]
  · intro h1 h2 h3 h4 h5
    constructor
    · intro h6
      simp only [consume, hadd, u128mul, Nat.mod_eq_of_lt h3]
      rw [if_neg (by omega), if_neg (by omega), if_neg (by omega), if_pos h6]
    · intro h6
      simp only [consume, hadd, u128mul, u128add, Nat.mod_eq_of_lt h3,
        Nat.mod_eq_of_lt h4, Nat.mod_eq_of_lt h5]
      rw [if_neg (by omega), if_neg (by omega), if_neg (by omega), if_neg (by omega)]

/-- Witness for C5 at a concrete reserve. -/
theorem C5_consume_loan_then_balance_witness :
    consume (new 2 0 100 5 false) 3 7 = .ok { (new 2 0 100 5 false) with
      xrd_owed := 0 + 7 * 3
      remaining_loan_balance := 5 - 3
      total_cost_units_consumed := 0 + 3 } :=
  (C5_consume_loan_then_balance (new 2 0 100 5 false) 3 7 (by decide) (by decide)).1
    (by decide) (by decide) (by decide)

end FeeRes

namespace FeeRes

open SystemLoanFeeReserve

/-- C6: `repay_all` first consumes the deferred total (through `consume`) and
moves the deferred charges into the live execution breakdown, zeroing the
deferred array; only then does it compare the balance against `xrd_owed`,
failing with `LoanRepaymentFailed` and leaving the debt outstanding when the
balance is short, and otherwise subtracting the debt and zeroing it. -/
theorem C6_repay_all_moves_deferred_then_repays (s s1 : SystemLoanFeeReserve) (sum : Nat)
    (hsum : deferredSum s.execution_deferred = some sum)
    (hcons : consume s sum s.execution_price = .ok s1) :
    (s1.remaining_xrd_balance < s1.xrd_owed →
      repay_all s = ({ s1 with
          execution := (s1.execution.zip s1.execution_deferred).map fun p => u32add p.1 p.2
          execution_deferred := List.replicate COSTING_COUNT 0
          execution_deferred_total := 0 },
        some .LoanRepaymentFailed)) ∧
    (s1.xrd_owed ≤ s1.remaining_xrd_balance →
      repay_all s = ({ s1 with
          execution := (s1.execution.zip s1.execution_deferred).map fun p => u32add p.1 p.2
          execution_deferred := List.replicate COSTING_COUNT 0
          execution_deferred_total := 0
          remaining_xrd_balance := s1.remaining_xrd_balance - s1.xrd_owed
          xrd_owed := 0 },
        if s1.abort_when_loan_repaid then
          some (.Abort .ConfiguredAbortTriggeredOnFeeLoanRepayment)
        else none)) := by
  constructor
  · intro h
    simp only [repay_all, hsum, hcons]
    rw [if_pos h]
  · intro h
    simp only [repay_all, hsum, hcons]
    rw [if_neg (by simp; omega)]
    by_cases hab : s1.abort_when_loan_repaid <;> simp [hab]

/-- The concrete reserve used by the C6 witness: a fresh reserve with price 1,
a deferred charge of 3 units, and a locked-in balance of 50. -/
def c6state : SystemLoanFeeReserve :=
  (((new 1 0 100 5 false).consume_deferred 3 1 .TxBaseCost).1.lock_fee 0 ⟨0, 50⟩ false).1.1

/-- The state of `c6state` after consuming its deferred total of 3 units. -/
def c6state1 : SystemLoanFeeReserve :=
  { c6state with remaining_loan_balance := 2, xrd_owed := 3, total_cost_units_consumed := 3 }

/-- Witness for C6 at a concrete reserve. -/
theorem C6_repay_all_moves_deferred_then_repays_witness :
    deferredSum c6state.execution_deferred = some 3 ∧
    consume c6state 3 c6state.execution_price = .ok c6state1 ∧
    repay_all c6state = ({ c6state1 with
        execution :=
          (c6state1.execution.zip c6state1.execution_deferred).map fun p => u32add p.1 p.2
        execution_deferred := List.replicate COSTING_COUNT 0
        execution_deferred_total := 0
        remaining_xrd_balance := c6state1.remaining_xrd_balance - c6state1.xrd_owed
        xrd_owed := 0 },
      none) :=
  ⟨by decide, by rfl,
    (C6_repay_all_moves_deferred_then_repays c6state c6state1 3
      (by decide) (by rfl)).2 (by decide)⟩

/-- C2 fails on the code: `consume_royalty` charges royalty cost units at the
tip-inclusive effective execution price, not at `cost_unit_price`.  With
`cost_unit_price = 100` and `tip_percentage = 2`, one royalty cost unit adds
102 to `xrd_owed` (while the loan is open) although `1 × cost_unit_price = 100`
and the reserve's own `effective_royalty_price` is 100. -/
theorem C2_consume_royalty_failing_input :
    ((new 100 2 1000 5 false).consume_royalty (.Package 1 1) 1).1.xrd_owed = 102 ∧
    ((new 100 2 1000 5 false).consume_royalty (.Package 1 1) 1).2 = none ∧
    (new 100 2 1000 5 false).effective_royalty_price = 100 ∧
    (102 : Nat) ≠ 1 * 100 := by
  refine ⟨by decide, by decide, by decide, by decide⟩

end FeeRes

namespace FeeRes

open SystemLoanFeeReserve

/-- The public mutating calls of the fee reserve, for stating reachability. -/
inductive FeeOp
  | opDeferred (amount multiplier : Nat) (reason : CostingReason)
  | opExecution (n : Nat) (reason : CostingReason)
  | opMultiplied (n multiplier : Nat) (reason : CostingReason)
  | opRoyalty (receiver : RoyaltyReceiver) (amount : Nat)
  | opLockFee (vault : Nat) (fee : Resource) (contingent : Bool)
  | opRepayAll
deriving Repr

/-- Apply one public call, keeping the resulting reserve state (errors
propagate to the caller; the state is whatever the call left behind). -/
def applyOp (s : SystemLoanFeeReserve) : FeeOp → SystemLoanFeeReserve
  | .opDeferred a m r => (s.consume_deferred a m r).1
  | .opExecution n r => (s.consume_execution n r).1
  | .opMultiplied n m r => (s.consume_multiplied_execution n m r).1
  | .opRoyalty rc a => (s.consume_royalty rc a).1
  | .opLockFee v f c => ((s.lock_fee v f c).1).1
  | .opRepayAll => s.repay_all.1

/-- Run a sequence of public calls from a state. -/
def runOps (s : SystemLoanFeeReserve) (ops : List FeeOp) : SystemLoanFeeReserve :=
  ops.foldl applyOp s

/-- The C7 invariant: the consumed counter never exceeds the limit. -/
def consumedLE (s : SystemLoanFeeReserve) : Prop :=
  s.total_cost_units_consumed ≤ s.cost_unit_limit

instance (s : SystemLoanFeeReserve) : Decidable (consumedLE s) := by
  unfold consumedLE; infer_instance

/-- `consume` preserves the limit and establishes the invariant on success. -/
theorem consume_ok_inv (s s' : SystemLoanFeeReserve) (n p : Nat)
    (h : consume s n p = .ok s') :
    s'.cost_unit_limit = s.cost_unit_limit ∧ consumedLE s' := by
  unfold consume at h
  cases hadd : checked_add s.total_cost_units_consumed n with
  | none => rw [hadd] at h; exact absurd h (by simp)
  | some sum =>
    rw [hadd] at h
    dsimp only at h
    have hsum : sum = s.total_cost_units_consumed + n := by
      unfold checked_add at hadd
      by_cases hlt : s.total_cost_units_consumed + n < U32M <;> simp [hlt] at hadd
      omega
    by_cases hlim : sum > s.cost_unit_limit
    · rw [if_pos hlim] at h; exact absurd h (by simp)
    · rw [if_neg hlim] at h
      by_cases hb1 : s.remaining_loan_balance ≥ n
      · rw [if_pos hb1] at h; injection h with h; subst h
        exact ⟨rfl, by unfold consumedLE; simp; omega⟩
      · rw [if_neg hb1] at h
        by_cases hb2 : s.remaining_loan_balance = 0
        · rw [if_pos hb2] at h
          by_cases hb3 : s.remaining_xrd_balance < u128mul p n
          · rw [if_pos hb3] at h; exact absurd h (by simp)
          · rw [if_neg hb3] at h; injection h with h; subst h
            exact ⟨rfl, by unfold consumedLE; simp; omega⟩
        · rw [if_neg hb2] at h
          by_cases hb4 :
              s.remaining_xrd_balance < u128mul p (n - s.remaining_loan_balance)
          · rw [if_pos hb4] at h; exact absurd h (by simp)
          · rw [if_neg hb4] at h; injection h with h; subst h
            exact ⟨rfl, by unfold consumedLE; simp; omega⟩

/-- `repay_all` preserves the invariant. -/
theorem repay_all_inv (s : SystemLoanFeeReserve) (h : consumedLE s) :
    consumedLE s.repay_all.1 := by
  unfold repay_all
  cases hds : deferredSum s.execution_deferred with
  | none => simpa using h
  | some sum =>
    dsimp only
    cases hc : consume s sum s.execution_price with
    | error e => simpa using h
    | ok s1 =>
      have h1 := consume_ok_inv s s1 sum s.execution_price hc
      dsimp only
      split_ifs <;> unfold consumedLE at h1 ⊢ <;> simp [h1.2]

/-- `consume_execution` preserves the invariant. -/
theorem consume_execution_inv (s : SystemLoanFeeReserve) (n : Nat) (r : CostingReason)
    (h : consumedLE s) : consumedLE (s.consume_execution n r).1 := by
  unfold consume_execution
  split_ifs with h0
  · exact h
  dsimp only
  cases hc : consume s n s.execution_price with
  | error e => simpa using h
  | ok s1 =>
    have h1 := consume_ok_inv s s1 n s.execution_price hc
    dsimp only
    cases ha : checkedAddAt s1.execution r.toIdx n with
    | none => simpa using h1.2
    | some ex =>
      dsimp only
      split_ifs with h2
      · exact repay_all_inv _ (by unfold consumedLE at h1 ⊢; simp [h1.2])
      · unfold consumedLE at h1 ⊢; simp [h1.2]

/-- `consume_royalty` preserves the invariant. -/
theorem consume_royalty_inv (s : SystemLoanFeeReserve) (rc : RoyaltyReceiver) (n : Nat)
    (h : consumedLE s) : consumedLE (s.consume_royalty rc n).1 := by
  unfold consume_royalty
  split_ifs with h0
  · exact h
  dsimp only
  cases hc : consume s n s.execution_price with
  | error e => simpa using h
  | ok s1 =>
    have h1 := consume_ok_inv s s1 n s.execution_price hc
    dsimp only
    cases ha : checked_add (royaltyGet s1.royalty rc) n with
    | none => simpa using h1.2
    | some v =>
      dsimp only
      split_ifs with h2
      · exact repay_all_inv _ (by unfold consumedLE at h1 ⊢; simp [h1.2])
      · unfold consumedLE at h1 ⊢; simp [h1.2]

/-- Every public call preserves the invariant. -/
theorem applyOp_inv (s : SystemLoanFeeReserve) (op : FeeOp) (h : consumedLE s) :
    consumedLE (applyOp s op) := by
  cases op with
  | opDeferred a m r =>
    unfold applyOp consume_deferred
    dsimp only
    split_ifs with h0
    · exact h
    cases checked_multiply a m with
    | none => simpa using h
    | some units =>
      dsimp only
      cases checkedAddAt s.execution_deferred r.toIdx units with
      | none => simpa using h
      | some d =>
        dsimp only
        cases checked_add ({ s with execution_deferred := d }).execution_deferred_total units
          <;> simpa using h
  | opExecution n r => exact consume_execution_inv s n r h
  | opMultiplied n m r =>
    unfold applyOp consume_multiplied_execution
    dsimp only
    split_ifs with h0
    · exact h
    cases checked_multiply n m with
    | none => simpa using h
    | some units => exact consume_execution_inv s units r h
  | opRoyalty rc a => exact consume_royalty_inv s rc a h
  | opLockFee v f c =>
    unfold applyOp lock_fee
    dsimp only
    split_ifs <;> simpa using h
  | opRepayAll => exact repay_all_inv s h

end FeeRes

namespace FeeRes

open SystemLoanFeeReserve

/-- Invariant preservation along any call sequence. -/
theorem runOps_inv (ops : List FeeOp) (s : SystemLoanFeeReserve) (h : consumedLE s) :
    consumedLE (runOps s ops) := by
  induction ops generalizing s with
  | nil => exact h
  | cons op rest ih => exact ih (applyOp s op) (applyOp_inv s op h)

/-- C7 (as amended): in every reserve state reachable from `new` by any
sequence of public calls, `total_cost_units_consumed ≤ cost_unit_limit`; a
`consume` that would push the counter past the limit fails — with
`LimitExceeded` when the u32 counter addition does not overflow, with
`Overflow` when it does — and a nonzero execution or royalty consumption whose
own cost units push past the limit returns `LimitExceeded` with the reserve
unchanged. -/
theorem C7_consumed_within_limit (price tip limit loan : Nat) (abort : Bool)
    (ops : List FeeOp) :
    consumedLE (runOps (new price tip limit loan abort) ops) ∧
    (∀ s : SystemLoanFeeReserve, ∀ n p : Nat,
      s.total_cost_units_consumed + n > s.cost_unit_limit →
      s.total_cost_units_consumed + n < U32M →
      consume s n p = .error .LimitExceeded) ∧
    (∀ s : SystemLoanFeeReserve, ∀ n p : Nat,
      U32M ≤ s.total_cost_units_consumed + n →
      consume s n p = .error .Overflow) ∧
    (∀ s : SystemLoanFeeReserve, ∀ n : Nat, ∀ r : CostingReason, n ≠ 0 →
      s.total_cost_units_consumed + n > s.cost_unit_limit →
      s.total_cost_units_consumed + n < U32M →
      s.consume_execution n r = (s, some .LimitExceeded)) ∧
    (∀ s : SystemLoanFeeReserve, ∀ rc : RoyaltyReceiver, ∀ n : Nat, n ≠ 0 →
      s.total_cost_units_consumed + n > s.cost_unit_limit →
      s.total_cost_units_consumed + n < U32M →
      s.consume_royalty rc n = (s, some .LimitExceeded)) := by
  have hLE : ∀ s : SystemLoanFeeReserve, ∀ n p : Nat,
      s.total_cost_units_consumed + n > s.cost_unit_limit →
      s.total_cost_units_consumed + n < U32M →
      consume s n p = .error .LimitExceeded := by
    intro s n p h1 h2
    have hadd : checked_add s.total_cost_units_consumed n
        = some (s.total_cost_units_consumed + n) := by simp [checked_add, h2]
    simp only [consume, hadd]
    rw [if_pos h1]
  refine ⟨?_, hLE, ?_, ?_, ?_⟩
  · exact runOps_inv ops _ (by unfold consumedLE new; simp)
  · intro s n p h1
    have hadd : checked_add s.total_cost_units_consumed n = none := by
      simp [checked_add]; omega
    simp only [consume, hadd]
  · intro s n r hn h1 h2
    unfold consume_execution
    rw [if_neg hn, hLE s n s.execution_price h1 h2]
  · intro s rc n hn h1 h2
    unfold consume_royalty
    rw [if_neg hn, hLE s n s.execution_price h1 h2]

/-- Witness for C7 at a concrete reserve. -/
theorem C7_consumed_within_limit_witness :
    consumedLE (runOps (new 1 0 10 5 false) []) ∧
    (new 1 0 10 5 false).consume_execution 11 .Invoke
      = (new 1 0 10 5 false, some .LimitExceeded) :=
  ⟨(C7_consumed_within_limit 1 0 10 5 false []).1,
    (C7_consumed_within_limit 1 0 10 5 false []).2.2.2.1 (new 1 0 10 5 false) 11 .Invoke
      (by decide) (by decide) (by decide)⟩

/-- The reserve reached from `new 0 0 (2^32-1) 0 false` after consuming
`2^32-1` execution cost units (reachable because the price is zero). -/
def c7state : SystemLoanFeeReserve :=
  ((new 0 0 (U32M - 1) 0 false).consume_execution (U32M - 1) .Invoke).1

/-- C7 as literally stated is false: from the reachable state `c7state`
(counter = limit = `u32::MAX`), consuming one more unit would push the total
past the limit, yet the call fails with `Overflow` — the u32 addition in
`checked_add` overflows before the limit comparison — not `LimitExceeded`. -/
theorem C7_limit_exceeded_counterexample :
    c7state = runOps (new 0 0 (U32M - 1) 0 false) [.opExecution (U32M - 1) .Invoke] ∧
    c7state.cost_unit_limit < c7state.total_cost_units_consumed + 1 ∧
    (c7state.consume_execution 1 .Invoke).2 = some .Overflow ∧
    (c7state.consume_execution 1 .Invoke).2 ≠ some .LimitExceeded := by
  exact ⟨by rfl, by decide, by decide, by decide⟩

end FeeRes

namespace Track

/-- `2^64`, the modulus of Rust `usize` arithmetic. -/
def USIZEM : Nat := 2 ^ 64

/-- `SubstateLockState` from `track.rs`. -/
inductive SubstateLockState
  | Read (n : Nat)
  | Write
deriving Repr, DecidableEq

namespace SubstateLockState

/-- `SubstateLockState::no_lock`. -/
def no_lock : SubstateLockState := .Read 0

/-- `SubstateLockState::is_locked`. -/
def is_locked : SubstateLockState → Bool
  | .Read 0 => false
  | _ => true

end SubstateLockState

/-- `LockFlags` (bitflags in `radix-engine-interface`): the three flags the
track consults. -/
structure LockFlags where
  mutable : Bool
  force_write : Bool
  unmodified_base : Bool
deriving Repr, DecidableEq

/-- `SubstateLockState::try_lock`; `none` models `Err(SubstateLockError)`. -/
def SubstateLockState.try_lock (self : SubstateLockState) (flags : LockFlags) :
    Option SubstateLockState :=
  match self with
  | .Read n =>
    if flags.mutable then
      if n ≠ 0 then none else some .Write
    else some (.Read (n + 1))
  | .Write => none

/-- `SubstateLockState::unlock` (the `usize` decrement wraps, as the unchecked
`*n - 1` would in Rust). -/
def SubstateLockState.unlock : SubstateLockState → SubstateLockState
  | .Read n => .Read ((n + (USIZEM - 1)) % USIZEM)
  | .Write => .Read 0

/-- `RuntimeSubstate` (its `IndexedScryptoValue` is opaque, a `Nat`). -/
structure RuntimeSubstate where
  value : Nat
  lock_state : SubstateLockState
deriving Repr, DecidableEq

/-- `RuntimeSubstate::new`. -/
def RuntimeSubstate.new (value : Nat) : RuntimeSubstate :=
  { value := value, lock_state := SubstateLockState.no_lock }

/-- `ReadOnly` from `track.rs`. -/
inductive ReadOnly
  | NonExistent
  | Existent (substate : RuntimeSubstate)
deriving Repr, DecidableEq

/-- `Write` from `track.rs`. -/
inductive Write
  | Update (substate : RuntimeSubstate)
  | Delete
deriving Repr, DecidableEq

/-- `Write::into_value`. -/
def Write.into_value : Write → Option Nat
  | .Update substate => some substate.value
  | .Delete => none

/-- `TrackedKey` from `track.rs`. -/
inductive TrackedKey
  | New (substate : RuntimeSubstate)
  | ReadOnly (read_only : ReadOnly)
  | ReadExistAndWrite (base : Nat) (write : Write)
  | ReadNonExistAndWrite (substate : RuntimeSubstate)
  | WriteOnly (write : Write)
  | Garbage
deriving Repr, DecidableEq

namespace TrackedKey

/-- `TrackedKey::get_runtime_substate_mut` (read-out form). -/
def get_runtime_substate : TrackedKey → Option RuntimeSubstate
  | .New substate
  | .WriteOnly (.Update substate)
  | .ReadOnly (.Existent substate)
  | .ReadExistAndWrite _ (.Update substate)
  | .ReadNonExistAndWrite substate => some substate
  | .WriteOnly .Delete
  | .ReadExistAndWrite _ .Delete
  | .ReadOnly .NonExistent
  | .Garbage => none

/-- The write-back half of `get_runtime_substate_mut().unwrap().lock_state = l`:
`none` when the key holds no runtime substate (the `unwrap` panic). -/
def withLockState (self : TrackedKey) (l : SubstateLockState) : Option TrackedKey :=
  match self with
  | .New s => some (.New { s with lock_state := l })
  | .WriteOnly (.Update s) => some (.WriteOnly (.Update { s with lock_state := l }))
  | .ReadOnly (.Existent s) => some (.ReadOnly (.Existent { s with lock_state := l }))
  | .ReadExistAndWrite b (.Update s) =>
    some (.ReadExistAndWrite b (.Update { s with lock_state := l }))
  | .ReadNonExistAndWrite s => some (.ReadNonExistAndWrite { s with lock_state := l })
  | _ => none

/-- `TrackedKey::get`. -/
def get : TrackedKey → Option Nat
  | .New substate
  | .WriteOnly (.Update substate)
  | .ReadOnly (.Existent substate)
  | .ReadExistAndWrite _ (.Update substate)
  | .ReadNonExistAndWrite substate => some substate.value
  | .WriteOnly .Delete
  | .ReadExistAndWrite _ .Delete
  | .ReadOnly .NonExistent
  | .Garbage => none

/-- `TrackedKey::into_value`. -/
def into_value : TrackedKey → Option Nat
  | .New substate
  | .WriteOnly (.Update substate)
  | .ReadOnly (.Existent substate)
  | .ReadNonExistAndWrite substate
  | .ReadExistAndWrite _ (.Update substate) => some substate.value
  | .WriteOnly .Delete
  | .ReadExistAndWrite _ .Delete
  | .ReadOnly .NonExistent
  | .Garbage => none

/-- `TrackedKey::set`.  In the two `ReadOnly` arms the source replaces `self`
and then copies the lock state out of the replaced key with
`old.get_runtime_substate_mut().unwrap()`; for `ReadOnly(NonExistent)` that
`unwrap` is on `None` — a panic, modelled as `none`. -/
def set (self : TrackedKey) (value : Nat) : Option TrackedKey :=
  match self with
  | .Garbage => some (.WriteOnly (.Update (RuntimeSubstate.new value)))
  | .New s => some (.New { s with value := value })
  | .WriteOnly (.Update s) => some (.WriteOnly (.Update { s with value := value }))
  | .ReadExistAndWrite b (.Update s) =>
    some (.ReadExistAndWrite b (.Update { s with value := value }))
  | .ReadNonExistAndWrite s => some (.ReadNonExistAndWrite { s with value := value })
  | .ReadOnly .NonExistent =>
    match (TrackedKey.ReadOnly .NonExistent).get_runtime_substate with
    | none => none
    | some old =>
      (TrackedKey.ReadNonExistAndWrite (RuntimeSubstate.new value)).withLockState
        old.lock_state
  | .ReadOnly (.Existent old) =>
    match (TrackedKey.ReadOnly (.Existent old)).get_runtime_substate with
    | none => none
    | some o =>
      (TrackedKey.ReadExistAndWrite old.value
        (.Update (RuntimeSubstate.new value))).withLockState o.lock_state
  | .ReadExistAndWrite b .Delete =>
    some (.ReadExistAndWrite b (.Update (RuntimeSubstate.new value)))
  | .WriteOnly .Delete => some (.WriteOnly (.Update (RuntimeSubstate.new value)))

/-- `TrackedKey::take`: the returned option and the replaced key. -/
def take : TrackedKey → Option Nat × TrackedKey
  | .Garbage => (none, .Garbage)
  | .New s => ((TrackedKey.New s).into_value, .Garbage)
  | .WriteOnly w => ((TrackedKey.WriteOnly w).into_value, .WriteOnly .Delete)
  | .ReadExistAndWrite b w => (w.into_value, .ReadExistAndWrite b .Delete)
  | .ReadNonExistAndWrite s =>
    ((TrackedKey.ReadNonExistAndWrite s).into_value, .ReadOnly .NonExistent)
  | .ReadOnly (.Existent v) =>
    ((TrackedKey.ReadOnly (.Existent v)).into_value, .ReadExistAndWrite v.value .Delete)
  | .ReadOnly .NonExistent => (none, .ReadOnly .NonExistent)

/-- `TrackedKey::revert_writes`. -/
def revert_writes : TrackedKey → TrackedKey
  | .ReadOnly r => .ReadOnly r
  | .Garbage => .Garbage
  | .New _ => .Garbage
  | .WriteOnly _ => .Garbage
  | .ReadExistAndWrite read _ => .ReadOnly (.Existent (RuntimeSubstate.new read))
  | .ReadNonExistAndWrite _ => .ReadOnly .NonExistent

end TrackedKey

end Track

namespace Track

open TrackedKey

/-- C3, checked against the code: all `set`/`take` transitions behave as the
claim states them — except `set` on `ReadOnly(NonExistent)`, where the source
does build `ReadNonExistAndWrite(v)` but then unwraps the runtime substate of
the replaced `ReadOnly(NonExistent)` key, which is `None`: the call panics
(`none` here) instead of completing the claimed transition. -/
theorem C3_tracked_key_set_take_transitions (v b : Nat) (s : RuntimeSubstate) (w : Write) :
    set .Garbage v = some (.WriteOnly (.Update (RuntimeSubstate.new v))) ∧
    set (.ReadOnly (.Existent s)) v =
      some (.ReadExistAndWrite s.value (.Update { value := v, lock_state := s.lock_state })) ∧
    set (.ReadOnly .NonExistent) v = none ∧
    set (.New s) v = some (.New { s with value := v }) ∧
    set (.WriteOnly (.Update s)) v = some (.WriteOnly (.Update { s with value := v })) ∧
    set (.ReadExistAndWrite b (.Update s)) v =
      some (.ReadExistAndWrite b (.Update { s with value := v })) ∧
    set (.ReadNonExistAndWrite s) v = some (.ReadNonExistAndWrite { s with value := v }) ∧
    take (.New s) = (some s.value, .Garbage) ∧
    take (.WriteOnly w) = (w.into_value, .WriteOnly .Delete) ∧
    take (.ReadExistAndWrite b w) = (w.into_value, .ReadExistAndWrite b .Delete) ∧
    take (.ReadNonExistAndWrite s) = (some s.value, .ReadOnly .NonExistent) ∧
    take (.ReadOnly (.Existent s)) = (some s.value, .ReadExistAndWrite s.value .Delete) ∧
    take (.ReadOnly .NonExistent) = (none, .ReadOnly .NonExistent) ∧
    take .Garbage = (none, .Garbage) := by
  refine ⟨rfl, rfl, rfl, rfl, rfl, rfl, rfl, rfl, ?_, ?_, rfl, rfl, rfl, rfl⟩ <;>
    cases w <;> rfl

end Track

namespace Track

/-- `TrackedSubstateKey` from `track.rs` (the `SubstateKey` is opaque). -/
structure TrackedSubstateKey where
  substate_key : Nat
  tracked : TrackedKey
deriving Repr, DecidableEq

/-- `TrackedModule` from `track.rs`; the `BTreeMap<Vec<u8>, _>` of substates is
an association list keyed by the (opaque) database key. -/
structure TrackedModule where
  substates : List (Nat × TrackedSubstateKey)
  range_read : Option Nat
deriving Repr, DecidableEq

/-- `TrackedModule::new`. -/
def TrackedModule.new : TrackedModule := { substates := [], range_read := none }

/-- `TrackedModule::revert_writes`. -/
def TrackedModule.revert_writes (m : TrackedModule) : TrackedModule :=
  { substates := m.substates.map fun p =>
      (p.1, { substate_key := p.2.substate_key, tracked := p.2.tracked.revert_writes })
    range_read := m.range_read }

/-- `TrackedNode` from `track.rs`. -/
structure TrackedNode where
  tracked_modules : List (Nat × TrackedModule)
  is_new : Bool
deriving Repr, DecidableEq

/-- `TrackedNode::new`. -/
def TrackedNode.new (is_new : Bool) : TrackedNode :=
  { tracked_modules := [], is_new := is_new }

/-- `TrackedNode::revert_writes`. -/
def TrackedNode.revert_writes (n : TrackedNode) : TrackedNode :=
  { n with tracked_modules := n.tracked_modules.map fun p => (p.1, p.2.revert_writes) }

/-- The mutable state of `Track` (the read-only `substate_db` is passed to the
operations that consult it; `DatabaseMapper` key mapping is the identity on
our opaque keys). -/
structure TrackState where
  tracked_nodes : List (Nat × TrackedNode)
  force_write_tracked_nodes : List (Nat × TrackedNode)
  locks : List (Nat × Nat × Nat × Nat × LockFlags)
  next_lock_id : Nat
deriving Repr, DecidableEq

/-- `IndexMap` lookup over an association list (first match). -/
def assocGet {α : Type} : List (Nat × α) → Nat → Option α
  | [], _ => none
  | p :: rest, k => if p.1 = k then some p.2 else assocGet rest k

/-- `IndexMap` in-place value update (no-op when the key is absent). -/
def assocUpdate {α : Type} (l : List (Nat × α)) (k : Nat) (f : α → α) : List (Nat × α) :=
  l.map fun p => if p.1 = k then (p.1, f p.2) else p

/-- `IndexMap::entry(k).or_insert(v)`: keep the map if `k` is present,
append `(k, v)` otherwise. -/
def assocEnsure {α : Type} (l : List (Nat × α)) (k : Nat) (v : α) : List (Nat × α) :=
  if (assocGet l k).isSome then l else l ++ [(k, v)]

/-- `IndexMap::insert(k, v)`: replace in place when present, append otherwise. -/
def assocSet {α : Type} (l : List (Nat × α)) (k : Nat) (v : α) : List (Nat × α) :=
  if (assocGet l k).isSome then assocUpdate l k (fun _ => v) else l ++ [(k, v)]

/-- Read the tracked key stored at `(node, module, db_key)`. -/
def lookupTracked (nodes : List (Nat × TrackedNode)) (nid mid k : Nat) :
    Option TrackedKey :=
  (assocGet nodes nid).bind fun tn =>
    (assocGet tn.tracked_modules mid).bind fun tm =>
      (assocGet tm.substates k).map (·.tracked)

/-- Replace the tracked key at an existing `(node, module, db_key)` entry,
keeping its stored `substate_key` — the `*tracked = force_track_key.tracked`
assignment of `revert_non_force_write_changes`.  `none` models the `unwrap`
panics when any level is missing. -/
def setTrackedEntry (nodes : List (Nat × TrackedNode)) (nid mid k : Nat)
    (t : TrackedKey) : Option (List (Nat × TrackedNode)) :=
  match lookupTracked nodes nid mid k with
  | none => none
  | some _ =>
    some (assocUpdate nodes nid fun tn =>
      { tn with tracked_modules := assocUpdate tn.tracked_modules mid fun tm =>
        { tm with substates := assocUpdate tm.substates k fun sk =>
          { sk with tracked := t } } })

/-- The triple-nested replay loop of `revert_non_force_write_changes`. -/
def replayForce (nodes : List (Nat × TrackedNode))
    (force : List (Nat × TrackedNode)) : Option (List (Nat × TrackedNode)) :=
  force.foldlM
    (fun acc p =>
      p.2.tracked_modules.foldlM
        (fun acc2 q =>
          q.2.substates.foldlM
            (fun acc3 r => setTrackedEntry acc3 p.1 q.1 r.1 r.2.tracked)
            acc2)
        acc)
    nodes

/-- `Track::revert_non_force_write_changes`: retain nodes that are not new,
revert the writes of every remaining tracked key, then replay the force-write
entries into the main overlay (taking the force-write map). -/
def revert_non_force_write_changes (s : TrackState) : Option TrackState :=
  let retained := (s.tracked_nodes.filter fun p => !p.2.is_new).map
    fun p => (p.1, p.2.revert_writes)
  (replayForce retained s.force_write_tracked_nodes).map fun nodes =>
    { s with tracked_nodes := nodes, force_write_tracked_nodes := [] }

/-- The force-write map flattened to `((node, module, db_key), tracked)`
entries, in replay order. -/
def flattenForce (force : List (Nat × TrackedNode)) :
    List ((Nat × Nat × Nat) × TrackedKey) :=
  force.foldr
    (fun p acc =>
      (p.2.tracked_modules.foldr
        (fun q acc2 =>
          (q.2.substates.map fun r => ((p.1, q.1, r.1), r.2.tracked)) ++ acc2)
        []) ++ acc)
    []

end Track

namespace Track

/-- The per-entry replay step, keyed by a flattened force entry. -/
def replayStep (acc : List (Nat × TrackedNode)) (e : (Nat × Nat × Nat) × TrackedKey) :
    Option (List (Nat × TrackedNode)) :=
  setTrackedEntry acc e.1.1 e.1.2.1 e.1.2.2 e.2

theorem assocGet_update {α : Type} (l : List (Nat × α)) (k k' : Nat) (f : α → α) :
    assocGet (assocUpdate l k f) k' =
      if k' = k then (assocGet l k).map f else assocGet l k' := by
  induction l with
  | nil => by_cases h : k' = k <;> simp [assocGet, assocUpdate, h]
  | cons p rest ih =>
    show assocGet ((if p.1 = k then (p.1, f p.2) else p) :: assocUpdate rest k f) k' = _
    by_cases hk' : k' = k
    · subst hk'
      by_cases hpk : p.1 = k' <;> simp [assocGet, hpk, ih]
    · by_cases hpk : p.1 = k
      · have hpk' : p.1 ≠ k' := by rw [hpk]; exact fun hh => hk' hh.symm
        have hk2 : k ≠ k' := fun hh => hk' hh.symm
        simp [assocGet, hpk, hpk', ih, hk', hk2]
      · by_cases hpk' : p.1 = k' <;> simp [assocGet, hpk, hpk', ih, hk']

theorem assocGet_map {α β : Type} (l : List (Nat × α)) (g : α → β) (k : Nat) :
    assocGet (l.map fun p => (p.1, g p.2)) k = (assocGet l k).map g := by
  induction l with
  | nil => rfl
  | cons p rest ih =>
    by_cases hpk : p.1 = k <;> simp [assocGet, hpk, ih]

theorem assocUpdate_keys {α : Type} (l : List (Nat × α)) (k : Nat) (f : α → α) :
    (assocUpdate l k f).map Prod.fst = l.map Prod.fst := by
  induction l with
  | nil => rfl
  | cons p rest ih =>
    by_cases hpk : p.1 = k <;> simp_all [assocUpdate]

theorem assocGet_none_of_not_mem {α : Type} (l : List (Nat × α)) (k : Nat)
    (h : k ∉ l.map Prod.fst) : assocGet l k = none := by
  induction l with
  | nil => rfl
  | cons p rest ih =>
    simp only [List.map_cons, List.mem_cons, not_or] at h
    have h1 : p.1 ≠ k := fun hh => h.1 hh.symm
    simp [assocGet, h1, ih h.2]

theorem lookupTracked_setTrackedEntry (nodes nodes' : List (Nat × TrackedNode))
    (n m k : Nat) (t : TrackedKey) (h : setTrackedEntry nodes n m k t = some nodes')
    (n' m' k' : Nat) :
    lookupTracked nodes' n' m' k' =
      if n' = n ∧ m' = m ∧ k' = k then some t else lookupTracked nodes n' m' k' := by
  unfold setTrackedEntry at h
  cases hl : lookupTracked nodes n m k with
  | none => rw [hl] at h; exact absurd h (by simp)
  | some t0 =>
    rw [hl] at h
    injection h with h
    subst h
    unfold lookupTracked at hl ⊢
    by_cases hn : n' = n
    case neg => simp [assocGet_update, hn]
    subst hn
    cases hg : assocGet nodes n' with
    | none => simp [hg] at hl
    | some tn =>
      by_cases hm : m' = m
      case neg => simp [assocGet_update, hg, hm]
      subst hm
      cases hg2 : assocGet tn.tracked_modules m' with
      | none => simp [hg, hg2] at hl
      | some tm =>
        by_cases hk : k' = k
        case neg => simp [assocGet_update, hg, hg2, hk]
        subst hk
        cases hg3 : assocGet tm.substates k' with
        | none => simp [hg, hg2, hg3] at hl
        | some sk => simp [assocGet_update, hg, hg2, hg3]

theorem setTrackedEntry_keys (nodes nodes' : List (Nat × TrackedNode))
    (n m k : Nat) (t : TrackedKey) (h : setTrackedEntry nodes n m k t = some nodes') :
    nodes'.map Prod.fst = nodes.map Prod.fst := by
  unfold setTrackedEntry at h
  cases hl : lookupTracked nodes n m k with
  | none => rw [hl] at h; exact absurd h (by simp)
  | some t0 =>
    rw [hl] at h
    injection h with h
    subst h
    exact assocUpdate_keys _ _ _

end Track

namespace Track

theorem optFoldlM_append {α σ : Type} (f : σ → α → Option σ) (xs ys : List α) (init : σ) :
    (xs ++ ys).foldlM f init = (xs.foldlM f init).bind fun z => ys.foldlM f z := by
  induction xs generalizing init with
  | nil => simp
  | cons a rest ih =>
    simp only [List.cons_append, List.foldlM_cons]
    cases f init a <;> simp [ih]

theorem optFoldlM_map {α β σ : Type} (g : α → β) (f : σ → β → Option σ) (l : List α)
    (init : σ) :
    (l.map g).foldlM f init = l.foldlM (fun s a => f s (g a)) init := by
  induction l generalizing init with
  | nil => rfl
  | cons a rest ih =>
    simp only [List.map_cons, List.foldlM_cons]
    cases f init (g a) <;> simp [ih]

theorem nodeFold_eq_flatten (p1 : Nat) (mods : List (Nat × TrackedModule))
    (nodes : List (Nat × TrackedNode)) :
    mods.foldlM
      (fun acc2 q =>
        q.2.substates.foldlM (fun a r => setTrackedEntry a p1 q.1 r.1 r.2.tracked) acc2)
      nodes
    = (mods.foldr
        (fun q acc2 =>
          (q.2.substates.map fun r => ((p1, q.1, r.1), r.2.tracked)) ++ acc2)
        []).foldlM replayStep nodes := by
  induction mods generalizing nodes with
  | nil => rfl
  | cons q rest ih =>
    simp only [List.foldlM_cons, List.foldr_cons]
    rw [optFoldlM_append]
    have hq : q.2.substates.foldlM
        (fun a r => setTrackedEntry a p1 q.1 r.1 r.2.tracked) nodes
        = (q.2.substates.map fun r => ((p1, q.1, r.1), r.2.tracked)).foldlM
            replayStep nodes := by
      rw [optFoldlM_map]; rfl
    rw [hq]
    cases (q.2.substates.map fun r => ((p1, q.1, r.1), r.2.tracked)).foldlM
        replayStep nodes <;> simp [ih]

theorem replayForce_eq_flatten (nodes force : List (Nat × TrackedNode)) :
    replayForce nodes force = (flattenForce force).foldlM replayStep nodes := by
  induction force generalizing nodes with
  | nil => rfl
  | cons p rest ih =>
    simp only [replayForce] at ih ⊢
    rw [List.foldlM_cons]
    rw [show flattenForce (p :: rest)
        = (p.2.tracked_modules.foldr
            (fun q acc2 =>
              (q.2.substates.map fun r => ((p.1, q.1, r.1), r.2.tracked)) ++ acc2)
            []) ++ flattenForce rest from rfl]
    rw [optFoldlM_append, ← nodeFold_eq_flatten]
    cases p.2.tracked_modules.foldlM
        (fun acc2 q =>
          q.2.substates.foldlM (fun a r => setTrackedEntry a p.1 q.1 r.1 r.2.tracked) acc2)
        nodes <;> simp [ih]

theorem assocGet_eq_none_iff {α : Type} (l : List (Nat × α)) (k : Nat) :
    assocGet l k = none ↔ k ∉ l.map Prod.fst := by
  induction l with
  | nil => simp [assocGet]
  | cons p rest ih =>
    by_cases hpk : p.1 = k
    · simp [assocGet, hpk]
    · have h2 : ¬ k = p.1 := fun hh => hpk hh.symm
      simp [assocGet, hpk, ih, h2]

theorem foldReplay_pointwise (entries : List ((Nat × Nat × Nat) × TrackedKey))
    (nodes final : List (Nat × TrackedNode))
    (hnd : (entries.map Prod.fst).Nodup)
    (h : entries.foldlM replayStep nodes = some final) :
    (∀ e ∈ entries, lookupTracked final e.1.1 e.1.2.1 e.1.2.2 = some e.2) ∧
    (∀ n m k : Nat, (n, m, k) ∉ entries.map Prod.fst →
      lookupTracked final n m k = lookupTracked nodes n m k) ∧
    final.map Prod.fst = nodes.map Prod.fst := by
  induction entries generalizing nodes with
  | nil =>
    simp only [List.foldlM_nil, pure, Option.some.injEq] at h
    subst h
    exact ⟨by simp, fun n m k _ => rfl, rfl⟩
  | cons e rest ih =>
    rw [List.foldlM_cons] at h
    cases hs : replayStep nodes e with
    | none => rw [hs] at h; exact absurd h (by simp)
    | some n1 =>
      rw [hs] at h
      simp only [Option.bind_eq_bind, Option.some_bind] at h
      simp only [List.map_cons, List.nodup_cons] at hnd
      obtain ⟨hni, hnd'⟩ := hnd
      obtain ⟨ih1, ih2, ih3⟩ := ih n1 hnd' h
      have hset := lookupTracked_setTrackedEntry nodes n1 e.1.1 e.1.2.1 e.1.2.2 e.2 hs
      refine ⟨?_, ?_, ?_⟩
      · intro e' he'
        rcases List.mem_cons.mp he' with rfl | hmem
        · rw [ih2 e'.1.1 e'.1.2.1 e'.1.2.2 hni, hset]
          rw [if_pos ⟨rfl, rfl, rfl⟩]
        · exact ih1 e' hmem
      · intro n m k hnm
        simp only [List.map_cons, List.mem_cons, not_or] at hnm
        rw [ih2 n m k hnm.2, hset]
        have : ¬(n = e.1.1 ∧ m = e.1.2.1 ∧ k = e.1.2.2) := by
          intro ⟨h1, h2, h3⟩
          exact hnm.1 (by subst h1 h2 h3; rfl)
        rw [if_neg this]
      · exact ih3.trans (setTrackedEntry_keys nodes n1 e.1.1 e.1.2.1 e.1.2.2 e.2 hs)

end Track

namespace Track

theorem keys_filter_map_subset (tns : List (Nat × TrackedNode)) (n : Nat)
    (h : n ∈ (((tns.filter fun p => !p.2.is_new).map
      fun p => (p.1, p.2.revert_writes)).map Prod.fst)) :
    n ∈ tns.map Prod.fst := by
  have h1 : (((tns.filter fun p => !p.2.is_new).map
      fun p => (p.1, p.2.revert_writes)).map Prod.fst)
      = (tns.filter fun p => !p.2.is_new).map Prod.fst := by
    simp [Function.comp]
  rw [h1] at h
  exact ((List.filter_sublist _).map Prod.fst).mem h

theorem assocGet_retained (tns : List (Nat × TrackedNode))
    (hnd : (tns.map Prod.fst).Nodup) (n : Nat) :
    assocGet ((tns.filter fun p => !p.2.is_new).map fun p => (p.1, p.2.revert_writes)) n
      = match assocGet tns n with
        | none => none
        | some tn => if tn.is_new then none else some tn.revert_writes := by
  induction tns with
  | nil => rfl
  | cons p rest ih =>
    simp only [List.map_cons, List.nodup_cons] at hnd
    obtain ⟨hni, hnd'⟩ := hnd
    by_cases hpk : p.1 = n
    · subst hpk
      cases hnew : p.2.is_new with
      | true =>
        have hnone : assocGet ((rest.filter fun p => !p.2.is_new).map
            fun p => (p.1, p.2.revert_writes)) p.1 = none := by
          rw [assocGet_eq_none_iff]
          intro hmem
          exact hni (keys_filter_map_subset rest p.1 hmem)
        simp [List.filter_cons, hnew, assocGet, hnone]
      | false =>
        simp [List.filter_cons, hnew, assocGet]
    · cases hnew : p.2.is_new with
      | true => simp [List.filter_cons, hnew, assocGet, hpk, ih hnd']
      | false => simp [List.filter_cons, hnew, assocGet, hpk, ih hnd']

theorem assocGet_map_revertSk (l : List (Nat × TrackedSubstateKey)) (k : Nat) :
    assocGet (l.map fun p =>
        (p.1, { substate_key := p.2.substate_key
                tracked := p.2.tracked.revert_writes : TrackedSubstateKey })) k
      = (assocGet l k).map fun sk =>
          { substate_key := sk.substate_key, tracked := sk.tracked.revert_writes } := by
  induction l with
  | nil => rfl
  | cons p rest ih =>
    by_cases hpk : p.1 = k <;> simp [assocGet, hpk, ih]

theorem lookupTracked_revertNode (tn : TrackedNode) (m k : Nat) :
    ((assocGet tn.revert_writes.tracked_modules m).bind fun tm =>
      (assocGet tm.substates k).map (·.tracked))
      = (((assocGet tn.tracked_modules m).bind fun tm =>
          (assocGet tm.substates k).map (·.tracked)).map TrackedKey.revert_writes) := by
  unfold TrackedNode.revert_writes
  rw [assocGet_map]
  cases assocGet tn.tracked_modules m with
  | none => rfl
  | some tm =>
    simp only [Option.map_some', Option.some_bind]
    unfold TrackedModule.revert_writes
    dsimp only
    rw [assocGet_map_revertSk]
    cases assocGet tm.substates k <;> simp

theorem lookupTracked_retained (tns : List (Nat × TrackedNode))
    (hnd : (tns.map Prod.fst).Nodup) (n m k : Nat) :
    lookupTracked ((tns.filter fun p => !p.2.is_new).map
        fun p => (p.1, p.2.revert_writes)) n m k
      = match assocGet tns n with
        | none => none
        | some tn => if tn.is_new then none
            else (lookupTracked tns n m k).map TrackedKey.revert_writes := by
  unfold lookupTracked
  rw [assocGet_retained tns hnd n]
  cases hg : assocGet tns n with
  | none => rfl
  | some tn =>
    dsimp only
    cases hnew : tn.is_new with
    | true => simp [hnew]
    | false =>
      rw [if_neg (by simp [hnew])]
      simp only [Option.some_bind]
      exact lookupTracked_revertNode tn m k

end Track

namespace Track

/-- C1: when `revert_non_force_write_changes` succeeds, the force-write map is
emptied; every node created this transaction (`is_new`) is discarded; every
entry previously recorded in the force-write map is replayed verbatim into the
main overlay; and every other tracked key of a surviving node is restored to
its read-only form by `revert_writes` (`Garbage`/`New`/`WriteOnly` become
`Garbage`, `ReadExistAndWrite(base, _)` becomes `ReadOnly(Existent(base))`,
`ReadNonExistAndWrite` becomes `ReadOnly(NonExistent)`), so the only writes
surviving the revert are the force-written ones. -/
theorem C1_revert_keeps_only_force_writes (s s' : TrackState)
    (hnodes : (s.tracked_nodes.map Prod.fst).Nodup)
    (hforce : ((flattenForce s.force_write_tracked_nodes).map Prod.fst).Nodup)
    (h : revert_non_force_write_changes s = some s') :
    s'.force_write_tracked_nodes = [] ∧
    (∀ e ∈ flattenForce s.force_write_tracked_nodes,
      lookupTracked s'.tracked_nodes e.1.1 e.1.2.1 e.1.2.2 = some e.2) ∧
    (∀ n m k : Nat,
      (n, m, k) ∉ (flattenForce s.force_write_tracked_nodes).map Prod.fst →
      lookupTracked s'.tracked_nodes n m k =
        match assocGet s.tracked_nodes n with
        | none => none
        | some tn => if tn.is_new then none
            else (lookupTracked s.tracked_nodes n m k).map TrackedKey.revert_writes) ∧
    (∀ n : Nat, ∀ tn : TrackedNode, assocGet s.tracked_nodes n = some tn → tn.is_new →
      assocGet s'.tracked_nodes n = none) := by
  unfold revert_non_force_write_changes at h
  dsimp only at h
  rw [replayForce_eq_flatten] at h
  cases hrep : (flattenForce s.force_write_tracked_nodes).foldlM replayStep
      ((s.tracked_nodes.filter fun p => !p.2.is_new).map
        fun p => (p.1, p.2.revert_writes)) with
  | none => rw [hrep] at h; exact absurd h (by simp)
  | some nodes' =>
    rw [hrep] at h
    simp only [Option.map_some', Option.some.injEq] at h
    subst h
    obtain ⟨hpt1, hpt2, hpt3⟩ := foldReplay_pointwise _ _ _ hforce hrep
    refine ⟨rfl, ?_, ?_, ?_⟩
    · intro e he
      exact hpt1 e he
    · intro n m k hnm
      rw [hpt2 n m k hnm]
      exact lookupTracked_retained s.tracked_nodes hnodes n m k
    · intro n tn hget hnew
      rw [assocGet_eq_none_iff, hpt3]
      rw [← assocGet_eq_none_iff]
      rw [assocGet_retained s.tracked_nodes hnodes n, hget]
      simp [hnew]

end Track

namespace Track

/-- Helper for concrete track states: a `TrackedSubstateKey`. -/
def mkSK (key : Nat) (t : TrackedKey) : TrackedSubstateKey :=
  { substate_key := key, tracked := t }

/-- Helper for concrete track states: a module with the given substates. -/
def mkMod (subs : List (Nat × TrackedSubstateKey)) : TrackedModule :=
  { substates := subs, range_read := none }

/-- Helper for concrete track states: a node with the given modules. -/
def mkNode (mods : List (Nat × TrackedModule)) (b : Bool) : TrackedNode :=
  { tracked_modules := mods, is_new := b }

/-- A concrete track state: one surviving node with a force-written key 5 and
a plain written key 6, one `is_new` node, one force-write entry for key 5. -/
def c1s : TrackState :=
  { tracked_nodes :=
      [(1, mkNode [(0, mkMod
          [(5, mkSK 5 (.ReadExistAndWrite 9 (.Update (RuntimeSubstate.new 10)))),
           (6, mkSK 6 (.WriteOnly (.Update (RuntimeSubstate.new 11))))])] false),
       (2, mkNode [(0, mkMod [(7, mkSK 7 (.New (RuntimeSubstate.new 12)))])] true)]
    force_write_tracked_nodes :=
      [(1, mkNode [(0, mkMod
          [(5, mkSK 5 (.ReadExistAndWrite 9 (.Update (RuntimeSubstate.new 42))))])] false)]
    locks := []
    next_lock_id := 0 }

/-- The state `revert_non_force_write_changes` produces from `c1s`. -/
def c1s' : TrackState :=
  { tracked_nodes :=
      [(1, mkNode [(0, mkMod
          [(5, mkSK 5 (.ReadExistAndWrite 9 (.Update (RuntimeSubstate.new 42)))),
           (6, mkSK 6 .Garbage)])] false)]
    force_write_tracked_nodes := []
    locks := []
    next_lock_id := 0 }

/-- Witness for C1 at the concrete state `c1s`. -/
theorem C1_revert_keeps_only_force_writes_witness :
    revert_non_force_write_changes c1s = some c1s' ∧
    lookupTracked c1s'.tracked_nodes 1 0 5 =
      some (.ReadExistAndWrite 9 (.Update (RuntimeSubstate.new 42))) ∧
    lookupTracked c1s'.tracked_nodes 1 0 6 = some .Garbage ∧
    assocGet c1s'.tracked_nodes 2 = none :=
  ⟨by decide,
    (C1_revert_keeps_only_force_writes c1s c1s' (by decide) (by decide) (by decide)).2.1
      ((5 : Nat) |> fun _ => ((1, 0, 5), .ReadExistAndWrite 9 (.Update (RuntimeSubstate.new 42))))
      (by decide),
    by
      have hc := (C1_revert_keeps_only_force_writes c1s c1s'
        (by decide) (by decide) (by decide)).2.2.1 1 0 6 (by decide)
      simpa using hc,
    (C1_revert_keeps_only_force_writes c1s c1s' (by decide) (by decide) (by decide)).2.2.2
      2 (mkNode [(0, mkMod [(7, mkSK 7 (.New (RuntimeSubstate.new 12)))])] true)
      (by decide) (by decide)⟩

end Track

namespace Track

/-- `AcquireLockError` (the variants produced by `acquire_lock_virtualize`). -/
inductive AcquireLockError
  | NotFound (node_id module_id substate_key : Nat)
  | LockUnmodifiedBaseOnNewSubstate (node_id module_id substate_key : Nat)
  | LockUnmodifiedBaseOnOnUpdatedSubstate (node_id module_id substate_key : Nat)
  | SubstateLocked (node_id module_id substate_key : Nat)
deriving Repr, DecidableEq

/-- `Track::new_lock_handle`. -/
def new_lock_handle (s : TrackState) (n m k : Nat) (flags : LockFlags) :
    Nat × TrackState :=
  (s.next_lock_id,
   { s with
     locks := s.locks ++ [(s.next_lock_id, n, m, k, flags)],
     next_lock_id := s.next_lock_id + 1 })

/-- `Track::get_tracked_substate_virtualize`: ensure node and module entries
exist, then read the key — falling back to the database and then to the
virtualization callback on a miss, recording the outcome in the overlay.
Returns the updated state and the tracked key at the entry. -/
def getTrackedVirtualize (db : Nat → Nat → Nat → Option Nat) (s : TrackState)
    (node_id module_id substate_key : Nat) (virtualize : Option Nat) :
    TrackState × TrackedKey :=
  let nodes1 := assocEnsure s.tracked_nodes node_id (TrackedNode.new false)
  let nodes2 := assocUpdate nodes1 node_id fun tn =>
    { tn with tracked_modules :=
        assocEnsure tn.tracked_modules module_id TrackedModule.new }
  match lookupTracked nodes2 node_id module_id substate_key with
  | some t => ({ s with tracked_nodes := nodes2 }, t)
  | none =>
    let tracked :=
      match db node_id module_id substate_key with
      | some value => TrackedKey.ReadOnly (.Existent (RuntimeSubstate.new value))
      | none =>
        match virtualize with
        | some value => TrackedKey.ReadNonExistAndWrite (RuntimeSubstate.new value)
        | none => TrackedKey.ReadOnly .NonExistent
    let nodes3 := assocUpdate nodes2 node_id fun tn =>
      { tn with tracked_modules := assocUpdate tn.tracked_modules module_id fun tm =>
        { tm with substates := tm.substates ++
            [(substate_key, { substate_key := substate_key, tracked := tracked })] } }
    ({ s with tracked_nodes := nodes3 }, tracked)

/-- `Track::acquire_lock_virtualize`. -/
def acquire_lock_virtualize (db : Nat → Nat → Nat → Option Nat) (s : TrackState)
    (node_id module_id substate_key : Nat) (flags : LockFlags)
    (virtualize : Option Nat) : Except AcquireLockError (Nat × TrackState) :=
  let st := getTrackedVirtualize db s node_id module_id substate_key virtualize
  let s1 := st.1
  let tracked := st.2
  let ub_check : Option AcquireLockError :=
    if flags.unmodified_base then
      match tracked with
      | .New _ | .Garbage =>
        some (.LockUnmodifiedBaseOnNewSubstate node_id module_id substate_key)
      | .WriteOnly _ | .ReadExistAndWrite _ _ | .ReadNonExistAndWrite _ =>
        some (.LockUnmodifiedBaseOnOnUpdatedSubstate node_id module_id substate_key)
      | .ReadOnly _ => none
    else none
  match ub_check with
  | some e => .error e
  | none =>
    match tracked.get_runtime_substate with
    | none => .error (.NotFound node_id module_id substate_key)
    | some substate =>
      match substate.lock_state.try_lock flags with
      | none => .error (.SubstateLocked node_id module_id substate_key)
      | some ls =>
        let s2 := { s1 with
          tracked_nodes := assocUpdate s1.tracked_nodes node_id fun tn =>
            { tn with tracked_modules := assocUpdate tn.tracked_modules module_id fun tm =>
              { tm with substates := assocUpdate tm.substates substate_key fun sk =>
                { sk with tracked := (sk.tracked.withLockState ls).getD sk.tracked } } } }
        .ok (new_lock_handle s2 node_id module_id substate_key flags)

/-- `Track::release_lock`: remove the lock, unlock the substate, and mirror
the tracked key into the force-write map when the lock carried `FORCE_WRITE`.
`none` models the `expect` panics (invalid handle / vanished substate). -/
def release_lock (db : Nat → Nat → Nat → Option Nat) (s : TrackState) (handle : Nat) :
    Option TrackState :=
  match assocGet s.locks handle with
  | none => none
  | some (node_id, module_id, substate_key, flags) =>
    let s0 := { s with locks := s.locks.filter fun p => p.1 ≠ handle }
    let st := getTrackedVirtualize db s0 node_id module_id substate_key none
    match st.2.get_runtime_substate with
    | none => none
    | some substate =>
      let unlocked := (st.2.withLockState substate.lock_state.unlock).getD st.2
      let s1 := { st.1 with
        tracked_nodes := assocUpdate st.1.tracked_nodes node_id fun tn =>
          { tn with tracked_modules := assocUpdate tn.tracked_modules module_id fun tm =>
            { tm with substates := assocUpdate tm.substates substate_key fun sk =>
              { sk with tracked := unlocked } } } }
      if flags.force_write then
        some { s1 with
          force_write_tracked_nodes := assocUpdate
            (assocEnsure s1.force_write_tracked_nodes node_id (TrackedNode.new false))
            node_id fun tn =>
            { tn with tracked_modules :=
                          assocUpdate
                            (assocEnsure tn.tracked_modules module_id TrackedModule.new)
                            module_id fun tm =>
                            { tm with substates :=
                                        assocSet tm.substates substate_key
                                          { substate_key := substate_key,
                                            tracked := unlocked } } } }
      else some s1

/-- The layered lookup the spec's "absent" refers to: the overlay entry if the
key is tracked, else the database, else the virtualization callback. -/
def effectiveValue (db : Nat → Nat → Nat → Option Nat) (s : TrackState)
    (n m k : Nat) (virt : Option Nat) : Option Nat :=
  match lookupTracked s.tracked_nodes n m k with
  | some t => t.get
  | none =>
    match db n m k with
    | some v => some v
    | none => virt

end Track

namespace Track

theorem assocGet_append {α : Type} (l1 l2 : List (Nat × α)) (k : Nat) :
    assocGet (l1 ++ l2) k = ((assocGet l1 k).rec (assocGet l2 k) fun v => some v) := by
  induction l1 with
  | nil => simp [assocGet]
  | cons p rest ih =>
    by_cases hpk : p.1 = k <;> simp [assocGet, hpk, ih]

theorem lookup_after_ensure (tns : List (Nat × TrackedNode)) (n m k : Nat) :
    lookupTracked
      (assocUpdate (assocEnsure tns n (TrackedNode.new false)) n fun tn =>
        { tn with tracked_modules := assocEnsure tn.tracked_modules m TrackedModule.new })
      n m k
    = lookupTracked tns n m k := by
  unfold lookupTracked
  rw [assocGet_update]
  rw [if_pos rfl]
  cases hg : assocGet tns n with
  | none =>
    have h1 : assocGet (assocEnsure tns n (TrackedNode.new false)) n
        = some (TrackedNode.new false) := by
      unfold assocEnsure
      rw [hg]
      simp [assocGet_append, hg, assocGet]
    rw [h1]
    simp [TrackedNode.new, assocEnsure, assocGet, TrackedModule.new]
  | some tn =>
    have h1 : assocGet (assocEnsure tns n (TrackedNode.new false)) n = some tn := by
      unfold assocEnsure
      rw [hg]
      simp [hg]
    rw [h1]
    simp only [Option.map_some', Option.some_bind]
    cases hg2 : assocGet tn.tracked_modules m with
    | none =>
      have h2 : assocGet (assocEnsure tn.tracked_modules m TrackedModule.new) m
          = some TrackedModule.new := by
        unfold assocEnsure
        rw [hg2]
        simp [assocGet_append, hg2, assocGet]
      rw [h2]
      simp [TrackedModule.new, assocGet, hg2]
    | some tm =>
      have h2 : assocGet (assocEnsure tn.tracked_modules m TrackedModule.new) m
          = some tm := by
        unfold assocEnsure
        rw [hg2]
        simp [hg2]
      simp [h2, hg2]

theorem getTracked_get (db : Nat → Nat → Nat → Option Nat) (s : TrackState)
    (n m k : Nat) (virt : Option Nat) :
    ((getTrackedVirtualize db s n m k virt).2).get = effectiveValue db s n m k virt := by
  unfold getTrackedVirtualize effectiveValue
  dsimp only
  rw [lookup_after_ensure]
  cases lookupTracked s.tracked_nodes n m k with
  | some t => rfl
  | none =>
    cases db n m k with
    | some v => rfl
    | none => cases virt <;> rfl

theorem get_runtime_none_iff_get_none (t : TrackedKey) :
    t.get_runtime_substate = none ↔ t.get = none := by
  cases t with
  | New s => simp [TrackedKey.get_runtime_substate, TrackedKey.get]
  | ReadOnly r => cases r <;> simp [TrackedKey.get_runtime_substate, TrackedKey.get]
  | ReadExistAndWrite b w =>
    cases w <;> simp [TrackedKey.get_runtime_substate, TrackedKey.get]
  | ReadNonExistAndWrite s => simp [TrackedKey.get_runtime_substate, TrackedKey.get]
  | WriteOnly w => cases w <;> simp [TrackedKey.get_runtime_substate, TrackedKey.get]
  | Garbage => simp [TrackedKey.get_runtime_substate, TrackedKey.get]

theorem getTracked_locks (db : Nat → Nat → Nat → Option Nat) (s : TrackState)
    (n m k : Nat) (virt : Option Nat) :
    ((getTrackedVirtualize db s n m k virt).1).locks = s.locks ∧
    ((getTrackedVirtualize db s n m k virt).1).next_lock_id = s.next_lock_id := by
  unfold getTrackedVirtualize
  dsimp only
  cases lookupTracked
      (assocUpdate (assocEnsure s.tracked_nodes n (TrackedNode.new false)) n fun tn =>
        { tn with tracked_modules :=
            assocEnsure tn.tracked_modules m TrackedModule.new })
      n m k with
  | some t => exact ⟨rfl, rfl⟩
  | none =>
    cases db n m k with
    | some v => exact ⟨rfl, rfl⟩
    | none => cases virt <;> exact ⟨rfl, rfl⟩

end Track

namespace Track

/-- The tracked key `acquire_lock_virtualize` inspects. -/
def acquiredTracked (db : Nat → Nat → Nat → Option Nat) (s : TrackState)
    (n m k : Nat) (virt : Option Nat) : TrackedKey :=
  (getTrackedVirtualize db s n m k virt).2

/-- C4: `acquire_lock_virtualize` fails with `NotFound` exactly when neither
the overlay (which shadows the rest), nor the database, nor the virtualization
callback yields a value for the key; absent `UNMODIFIED_BASE`, it fails with
`SubstateLocked` exactly when `try_lock` rejects — the key is write-locked, or
`MUTABLE` is requested while readers hold it, so at most one writer or any
number of readers hold a key at once; when `UNMODIFIED_BASE` is requested on a
key mutated this transaction it fails with one of the two
`LockUnmodifiedBase*` errors; and on success it returns the fresh handle
`next_lock_id`, bumping the counter and registering the lock. -/
theorem C4_acquire_lock_characterization (db : Nat → Nat → Nat → Option Nat)
    (s : TrackState) (n m k : Nat) (flags : LockFlags) (virt : Option Nat) :
    (flags.unmodified_base = false →
      (acquire_lock_virtualize db s n m k flags virt = .error (.NotFound n m k) ↔
        effectiveValue db s n m k virt = none)) ∧
    (flags.unmodified_base = false →
      ∀ sub, (acquiredTracked db s n m k virt).get_runtime_substate = some sub →
      (acquire_lock_virtualize db s n m k flags virt = .error (.SubstateLocked n m k) ↔
        sub.lock_state.try_lock flags = none)) ∧
    (flags.unmodified_base = true →
      (∀ ro, acquiredTracked db s n m k virt ≠ .ReadOnly ro) →
      (acquire_lock_virtualize db s n m k flags virt
          = .error (.LockUnmodifiedBaseOnNewSubstate n m k) ∨
        acquire_lock_virtualize db s n m k flags virt
          = .error (.LockUnmodifiedBaseOnOnUpdatedSubstate n m k))) ∧
    (∀ ls ls' : SubstateLockState,
      (ls.try_lock flags = none ↔
        ls = .Write ∨ (flags.mutable = true ∧ ∃ j, j ≠ 0 ∧ ls = .Read j)) ∧
      (flags.mutable = true → ls.try_lock flags = some ls' →
        ls = .Read 0 ∧ ls' = .Write) ∧
      (flags.mutable = false → ls.try_lock flags = some ls' →
        ∃ j, ls = .Read j ∧ ls' = .Read (j + 1))) ∧
    (∀ h : Nat, ∀ s2 : TrackState,
      acquire_lock_virtualize db s n m k flags virt = .ok (h, s2) →
      h = s.next_lock_id ∧ s2.next_lock_id = s.next_lock_id + 1 ∧
      s2.locks.map Prod.fst = s.locks.map Prod.fst ++ [h] ∧
      ((∀ i ∈ s.locks.map Prod.fst, i < s.next_lock_id) →
        h ∉ s.locks.map Prod.fst)) := by
  have hval := getTracked_get db s n m k virt
  have hlocks := getTracked_locks db s n m k virt
  refine ⟨?_, ?_, ?_, ?_, ?_⟩
  · intro hub
    unfold acquire_lock_virtualize
    dsimp only
    rw [hub, if_neg (by simp)]
    dsimp only
    cases hrt : ((getTrackedVirtualize db s n m k virt).2).get_runtime_substate with
    | none =>
      rw [← hval, ← (get_runtime_none_iff_get_none _).mp hrt]
      simp
    | some sub =>
      have hsome : ((getTrackedVirtualize db s n m k virt).2).get ≠ none := by
        intro hc
        rw [(get_runtime_none_iff_get_none _).mpr hc] at hrt
        exact absurd hrt (by simp)
      rw [← hval]
      cases htl : sub.lock_state.try_lock flags <;> simp [htl, hsome]
  · intro hub sub hrt
    unfold acquire_lock_virtualize
    dsimp only
    rw [hub, if_neg (by simp)]
    dsimp only
    rw [show (acquiredTracked db s n m k virt).get_runtime_substate
        = ((getTrackedVirtualize db s n m k virt).2).get_runtime_substate from rfl] at hrt
    rw [hrt]
    cases htl : sub.lock_state.try_lock flags <;> simp [htl]
  · intro hub hmut
    unfold acquire_lock_virtualize
    dsimp only
    rw [hub, if_pos rfl]
    cases ht : (getTrackedVirtualize db s n m k virt).2 with
    | New s0 => simp
    | Garbage => simp
    | WriteOnly w => simp
    | ReadExistAndWrite b w => simp
    | ReadNonExistAndWrite s0 => simp
    | ReadOnly ro => exact absurd ht (hmut ro)
  · intro ls ls'
    refine ⟨?_, ?_, ?_⟩
    · cases ls with
      | Read j =>
        cases hm : flags.mutable <;>
          by_cases hj : j = 0 <;>
          simp [SubstateLockState.try_lock, hm, hj]
      | Write => simp [SubstateLockState.try_lock]
    · intro hm htl
      cases ls with
      | Read j =>
        by_cases hj : j = 0 <;> simp [SubstateLockState.try_lock, hm, hj] at htl
        all_goals simp_all
      | Write => simp [SubstateLockState.try_lock] at htl
    · intro hm htl
      cases ls with
      | Read j =>
        simp [SubstateLockState.try_lock, hm] at htl
        exact ⟨j, rfl, by rw [← htl]⟩
      | Write => simp [SubstateLockState.try_lock] at htl
  · intro h s2 hok
    have hcore : ∀ s2' : TrackState, s2'.locks = s.locks →
        s2'.next_lock_id = s.next_lock_id →
        new_lock_handle s2' n m k flags = (h, s2) →
        h = s.next_lock_id ∧ s2.next_lock_id = s.next_lock_id + 1 ∧
        s2.locks.map Prod.fst = s.locks.map Prod.fst ++ [h] ∧
        ((∀ i ∈ s.locks.map Prod.fst, i < s.next_lock_id) →
          h ∉ s.locks.map Prod.fst) := by
      intro s2' hl hn heq
      unfold new_lock_handle at heq
      injection heq with h1 h2
      subst h1
      subst h2
      refine ⟨hn, by simp [hn], by simp [hl, hn], ?_⟩
      intro hlt hmem
      exact absurd (hn ▸ hlt _ hmem) (lt_irrefl _)
    unfold acquire_lock_virtualize at hok
    dsimp only at hok
    cases hub : flags.unmodified_base with
    | true =>
      rw [hub, if_pos rfl] at hok
      cases ht : (getTrackedVirtualize db s n m k virt).2 with
      | New s0 => rw [ht] at hok; exact absurd hok (by simp)
      | Garbage => rw [ht] at hok; exact absurd hok (by simp)
      | WriteOnly w => rw [ht] at hok; exact absurd hok (by simp)
      | ReadExistAndWrite b w => rw [ht] at hok; exact absurd hok (by simp)
      | ReadNonExistAndWrite s0 => rw [ht] at hok; exact absurd hok (by simp)
      | ReadOnly ro =>
        rw [ht] at hok
        dsimp only at hok
        cases hrt : (TrackedKey.ReadOnly ro).get_runtime_substate with
        | none => rw [hrt] at hok; exact absurd hok (by simp)
        | some sub =>
          rw [hrt] at hok
          dsimp only at hok
          cases htl : sub.lock_state.try_lock flags with
          | none => rw [htl] at hok; exact absurd hok (by simp)
          | some ls =>
            rw [htl] at hok
            dsimp only at hok
            injection hok with hok
            exact hcore _ (by simp [hlocks.1]) (by simp [hlocks.2]) hok
    | false =>
      rw [hub, if_neg (by simp)] at hok
      dsimp only at hok
      cases hrt : ((getTrackedVirtualize db s n m k virt).2).get_runtime_substate with
      | none => rw [hrt] at hok; exact absurd hok (by simp)
      | some sub =>
        rw [hrt] at hok
        dsimp only at hok
        cases htl : sub.lock_state.try_lock flags with
        | none => rw [htl] at hok; exact absurd hok (by simp)
        | some ls =>
          rw [htl] at hok
          dsimp only at hok
          injection hok with hok
          exact hcore _ (by simp [hlocks.1]) (by simp [hlocks.2]) hok

/-- A concrete backing store for the C4 witness: one substate at `(1,0,5)`. -/
def c4db : Nat → Nat → Nat → Option Nat :=
  fun a b c => if a = 1 ∧ b = 0 ∧ c = 5 then some 77 else none

/-- `MUTABLE` lock flags. -/
def c4flags : LockFlags :=
  { mutable := true, force_write := false, unmodified_base := false }

/-- An empty track state. -/
def c4s : TrackState :=
  { tracked_nodes := [], force_write_tracked_nodes := [], locks := [], next_lock_id := 0 }

/-- The state after a successful mutable acquire of `(1,0,5)` on `c4s`. -/
def c4res : TrackState :=
  { tracked_nodes := [(1, mkNode [(0, mkMod
      [(5, mkSK 5 (.ReadOnly (.Existent
        { value := 77, lock_state := .Write })))])] false)]
    force_write_tracked_nodes := []
    locks := [(0, 1, 0, 5, c4flags)]
    next_lock_id := 1 }

/-- Witness for C4 at a concrete acquire. -/
theorem C4_acquire_lock_characterization_witness :
    acquire_lock_virtualize c4db c4s 1 0 5 c4flags none = .ok (0, c4res) ∧
    ((0 : Nat) = c4s.next_lock_id ∧ c4res.next_lock_id = c4s.next_lock_id + 1 ∧
      c4res.locks.map Prod.fst = c4s.locks.map Prod.fst ++ [0] ∧
      ((∀ i ∈ c4s.locks.map Prod.fst, i < c4s.next_lock_id) →
        (0 : Nat) ∉ c4s.locks.map Prod.fst)) :=
  ⟨by rfl,
    (C4_acquire_lock_characterization c4db c4s 1 0 5 c4flags none).2.2.2.2 0 c4res (by rfl)⟩

end Track

namespace NFB

open Track (assocGet assocUpdate assocSet assocGet_update assocGet_append)

/-- Modelled from the spec: the non-fungible bucket substates — the spec's
"Non-fungible vault holds {liquid: ordered set of NonFungibleLocalId, locked:
map id→lock-count}", mirrored in transient form by buckets
(`LiquidNonFungibleResource` / `LockedNonFungibleResource`, whose definitions
are not among the provided sources).  Ids are opaque `Nat`s; the `IndexSet` is
a (nodup) list and the lock-count map an association list. -/
structure NFBucketState where
  liquid : List Nat
  locked : List (Nat × Nat)
deriving Repr, DecidableEq

/-- Modelled from the spec: `LiquidNonFungibleResource::take_by_ids` removes
exactly the requested ids from the liquid set and fails (resource error) when
one of them is absent. -/
def take_by_ids : List Nat → List Nat → Option (List Nat)
  | liquid, [] => some liquid
  | liquid, i :: rest =>
    if i ∈ liquid then take_by_ids (liquid.erase i) rest else none

/-- Modelled from the spec: `LiquidNonFungibleResource::put` unions the ids
into the liquid set. -/
def putLiquid (liquid other : List Nat) : List Nat :=
  liquid ++ other.filter fun i => decide (i ∉ liquid)

/-- The `for id in ids { locked.ids.entry(id).or_default().add_assign(1) }`
loop of `lock_non_fungibles`. -/
def lockFold : List (Nat × Nat) → List Nat → List (Nat × Nat)
  | locked, [] => locked
  | locked, i :: rest => lockFold (assocSet locked i ((assocGet locked i).getD 0 + 1)) rest

/-- `NonFungibleBucketBlueprint::lock_non_fungibles`: take the not-yet-locked
ids out of the liquid set, then increment every requested id's lock count.
`none` models the take failure (id not liquid). -/
def lock_non_fungibles (s : NFBucketState) (ids : List Nat) : Option NFBucketState :=
  let delta := ids.filter fun i => !(assocGet s.locked i).isSome
  match take_by_ids s.liquid delta with
  | none => none
  | some liquid' => some { liquid := liquid', locked := lockFold s.locked ids }

/-- `locked.ids.remove(&id)` (the map without the key). -/
def removeKey (l : List (Nat × Nat)) (i : Nat) : List (Nat × Nat) :=
  l.filter fun p => p.1 != i

/-- The unlock loop of `unlock_non_fungibles`: each id's entry is removed
(`none` models the `expect` panic when it is missing); counts above one are
re-inserted decremented, counts of one send the id back to the liquid set. -/
def unlockLoop : List (Nat × Nat) → List Nat → List Nat → Option (List (Nat × Nat) × List Nat)
  | locked, ret, [] => some (locked, ret)
  | locked, ret, i :: rest =>
    match assocGet locked i with
    | none => none
    | some cnt =>
      let locked' := removeKey locked i
      if cnt > 1 then unlockLoop (assocSet locked' i (cnt - 1)) ret rest
      else unlockLoop locked' (ret ++ [i]) rest

/-- `NonFungibleBucketBlueprint::unlock_non_fungibles`. -/
def unlock_non_fungibles (s : NFBucketState) (ids : List Nat) : Option NFBucketState :=
  match unlockLoop s.locked [] ids with
  | none => none
  | some (locked', ret) =>
    some { liquid := putLiquid s.liquid ret, locked := locked' }

/-- An id's lock count (0 when absent). -/
def lockedCount (locked : List (Nat × Nat)) (i : Nat) : Nat :=
  (assocGet locked i).getD 0

/-- The invariant of the locked map: every readable count is at least one
(an id is a key exactly while its lock count is positive). -/
def lockedWF (locked : List (Nat × Nat)) : Prop :=
  ∀ x c, assocGet locked x = some c → 1 ≤ c

end NFB

namespace NFB

open Track (assocGet assocUpdate assocSet assocGet_update assocGet_append)

theorem assocGet_set {α : Type} (l : List (Nat × α)) (k k' : Nat) (v : α) :
    assocGet (assocSet l k v) k' = if k' = k then some v else assocGet l k' := by
  unfold Track.assocSet
  by_cases hp : (assocGet l k).isSome
  · rw [if_pos hp, assocGet_update]
    by_cases hk : k' = k
    · obtain ⟨x, hx⟩ := Option.isSome_iff_exists.mp hp
      simp [hk, hx]
    · simp [hk]
  · rw [if_neg hp, assocGet_append]
    by_cases hk : k' = k
    · subst hk
      have hnone : assocGet l k' = none := Option.not_isSome_iff_eq_none.mp hp
      simp [hnone, Track.assocGet]
    · cases hg : assocGet l k' with
      | some x => simp [hk]
      | none =>
        have hkk : ¬ (k = k') := fun hh => hk hh.symm
        simp [Track.assocGet, hkk, hk]

theorem assocGet_removeKey_ne (l : List (Nat × Nat)) (i x : Nat) (hx : x ≠ i) :
    assocGet (removeKey l i) x = assocGet l x := by
  induction l with
  | nil => rfl
  | cons p rest ih =>
    show assocGet ((p :: rest).filter fun q => q.1 != i) x = _
    rw [List.filter_cons]
    by_cases hpi : p.1 = i
    · have hpx : ¬ p.1 = x := by rw [hpi]; exact fun hh => hx hh.symm
      rw [if_neg (by simp [hpi])]
      rw [show (rest.filter fun q => q.1 != i) = removeKey rest i from rfl, ih]
      simp [Track.assocGet, hpx]
    · rw [if_pos (by simp [hpi])]
      by_cases hpx : p.1 = x
      · simp [Track.assocGet, hpx]
      · simp only [Track.assocGet, hpx, if_neg hpx]
        exact ih

theorem assocGet_removeKey_self (l : List (Nat × Nat)) (i : Nat) :
    assocGet (removeKey l i) i = none := by
  induction l with
  | nil => rfl
  | cons p rest ih =>
    show assocGet ((p :: rest).filter fun q => q.1 != i) i = _
    rw [List.filter_cons]
    by_cases hpi : p.1 = i
    · rw [if_neg (by simp [hpi])]
      exact ih
    · rw [if_pos (by simp [hpi])]
      simp only [Track.assocGet, if_neg hpi]
      exact ih

theorem lockFold_count (ids : List Nat) :
    ∀ locked : List (Nat × Nat), ids.Nodup → ∀ x : Nat,
    lockedCount (lockFold locked ids) x
      = lockedCount locked x + (if x ∈ ids then 1 else 0) := by
  induction ids with
  | nil => intro locked _ x; simp [lockFold]
  | cons i rest ih =>
    intro locked hnd x
    simp only [List.nodup_cons] at hnd
    rw [show lockFold locked (i :: rest)
        = lockFold (assocSet locked i ((assocGet locked i).getD 0 + 1)) rest from rfl]
    rw [ih _ hnd.2 x]
    unfold lockedCount
    rw [assocGet_set]
    by_cases hx : x = i
    · subst hx
      simp [List.mem_cons, hnd.1, lockedCount]
    · have hxr : (x ∈ i :: rest) ↔ x ∈ rest := by simp [List.mem_cons, hx]
      simp [hx, hxr, lockedCount]

theorem lockFold_wf (ids : List Nat) :
    ∀ locked : List (Nat × Nat), lockedWF locked → lockedWF (lockFold locked ids) := by
  induction ids with
  | nil => intro locked h; exact h
  | cons i rest ih =>
    intro locked h
    rw [show lockFold locked (i :: rest)
        = lockFold (assocSet locked i ((assocGet locked i).getD 0 + 1)) rest from rfl]
    refine ih _ ?_
    intro x c hx
    rw [assocGet_set] at hx
    by_cases hxi : x = i
    · rw [if_pos hxi] at hx
      injection hx with hx
      omega
    · rw [if_neg hxi] at hx
      exact h x c hx

theorem take_by_ids_spec (ids : List Nat) :
    ∀ liquid : List Nat, liquid.Nodup → ids.Nodup → (∀ i ∈ ids, i ∈ liquid) →
    ∃ liquid', take_by_ids liquid ids = some liquid' ∧ liquid'.Nodup ∧
      (∀ x, x ∈ liquid' ↔ x ∈ liquid ∧ x ∉ ids) := by
  induction ids with
  | nil =>
    intro liquid hl _ _
    exact ⟨liquid, rfl, hl, by simp⟩
  | cons i rest ih =>
    intro liquid hl hnd hmem
    simp only [List.nodup_cons] at hnd
    have hi : i ∈ liquid := hmem i (by simp)
    have hpre : ∀ j ∈ rest, j ∈ liquid.erase i := by
      intro j hj
      rw [hl.mem_erase_iff]
      exact ⟨fun hji => hnd.1 (hji ▸ hj), hmem j (by simp [hj])⟩
    obtain ⟨liquid', h1, h2, h3⟩ := ih (liquid.erase i) (hl.erase i) hnd.2 hpre
    refine ⟨liquid', ?_, h2, ?_⟩
    · rw [show take_by_ids liquid (i :: rest)
          = if i ∈ liquid then take_by_ids (liquid.erase i) rest else none from rfl]
      rw [if_pos hi]
      exact h1
    · intro x
      rw [h3 x, hl.mem_erase_iff]
      constructor
      · rintro ⟨⟨hxne, hxl⟩, hxr⟩
        exact ⟨hxl, by simp [hxne, hxr]⟩
      · rintro ⟨hxl, hxir⟩
        simp only [List.mem_cons, not_or] at hxir
        exact ⟨⟨hxir.1, hxl⟩, hxir.2⟩

end NFB

namespace NFB

open Track (assocGet assocSet)

theorem putLiquid_mem (a b : List Nat) (x : Nat) :
    x ∈ putLiquid a b ↔ x ∈ a ∨ x ∈ b := by
  unfold putLiquid
  simp only [List.mem_append, List.mem_filter, decide_eq_true_eq]
  by_cases ha : x ∈ a <;> simp [ha]

theorem unlockLoop_spec (ids : List Nat) :
    ∀ locked : List (Nat × Nat), ∀ ret : List Nat, ids.Nodup → lockedWF locked →
    (∀ i ∈ ids, (assocGet locked i).isSome) →
    ∃ locked' out, unlockLoop locked ret ids = some (locked', out) ∧
      lockedWF locked' ∧
      (∀ x, lockedCount locked' x =
        if x ∈ ids then lockedCount locked x - 1 else lockedCount locked x) ∧
      (∀ x, x ∈ out ↔ x ∈ ret ∨ (x ∈ ids ∧ lockedCount locked x = 1)) := by
  induction ids with
  | nil =>
    intro locked ret _ hwf _
    exact ⟨locked, ret, rfl, hwf, by simp, by simp⟩
  | cons i rest ih =>
    intro locked ret hnd hwf hsome
    simp only [List.nodup_cons] at hnd
    obtain ⟨cnt, hcnt⟩ := Option.isSome_iff_exists.mp (hsome i (by simp))
    have hc1 : 1 ≤ cnt := hwf i cnt hcnt
    have hcount_i : lockedCount locked i = cnt := by simp [lockedCount, hcnt]
    by_cases hgt : cnt > 1
    · -- re-insert with a decremented count
      have hstep : unlockLoop locked ret (i :: rest)
          = unlockLoop (assocSet (removeKey locked i) i (cnt - 1)) ret rest := by
        show (match assocGet locked i with
          | none => none
          | some cnt =>
            let locked' := removeKey locked i
            if cnt > 1 then unlockLoop (assocSet locked' i (cnt - 1)) ret rest
            else unlockLoop locked' (ret ++ [i]) rest) = _
        rw [hcnt]
        simp [hgt]
      have hget1 : ∀ x, assocGet (assocSet (removeKey locked i) i (cnt - 1)) x
          = if x = i then some (cnt - 1) else assocGet locked x := by
        intro x
        rw [assocGet_set]
        by_cases hx : x = i
        · simp [hx]
        · simp [hx, assocGet_removeKey_ne locked i x hx]
      have hwf1 : lockedWF (assocSet (removeKey locked i) i (cnt - 1)) := by
        intro x c hx
        rw [hget1 x] at hx
        by_cases hxi : x = i
        · rw [if_pos hxi] at hx
          injection hx with hx
          omega
        · rw [if_neg hxi] at hx
          exact hwf x c hx
      have hsome1 : ∀ j ∈ rest,
          (assocGet (assocSet (removeKey locked i) i (cnt - 1)) j).isSome := by
        intro j hj
        rw [hget1 j]
        have hji : ¬ j = i := fun hh => hnd.1 (hh ▸ hj)
        rw [if_neg hji]
        exact hsome j (by simp [hj])
      obtain ⟨locked', out, h1, h2, h3, h4⟩ :=
        ih (assocSet (removeKey locked i) i (cnt - 1)) ret hnd.2 hwf1 hsome1
      refine ⟨locked', out, by rw [hstep]; exact h1, h2, ?_, ?_⟩
      · intro x
        rw [h3 x]
        by_cases hx : x = i
        · subst hx
          simp [hnd.1, lockedCount, hget1, hcnt]
        · have hxr : (x ∈ i :: rest) ↔ x ∈ rest := by simp [List.mem_cons, hx]
          simp [hxr, lockedCount, hget1, hx]
      · intro x
        rw [h4 x]
        by_cases hx : x = i
        · subst hx
          have hnr : x ∉ rest := hnd.1
          simp [hnr, lockedCount, hget1, hcnt]
          omega
        · have hxr : (x ∈ i :: rest) ↔ x ∈ rest := by simp [List.mem_cons, hx]
          simp [hxr, lockedCount, hget1, hx]
    · -- count reaches zero: the id returns to the liquid set
      have hc0 : cnt = 1 := by omega
      have hstep : unlockLoop locked ret (i :: rest)
          = unlockLoop (removeKey locked i) (ret ++ [i]) rest := by
        show (match assocGet locked i with
          | none => none
          | some cnt =>
            let locked' := removeKey locked i
            if cnt > 1 then unlockLoop (assocSet locked' i (cnt - 1)) ret rest
            else unlockLoop locked' (ret ++ [i]) rest) = _
        rw [hcnt]
        simp [hgt]
      have hget1 : ∀ x, assocGet (removeKey locked i) x
          = if x = i then none else assocGet locked x := by
        intro x
        by_cases hx : x = i
        · simp [hx, assocGet_removeKey_self]
        · simp [hx, assocGet_removeKey_ne locked i x hx]
      have hwf1 : lockedWF (removeKey locked i) := by
        intro x c hx
        rw [hget1 x] at hx
        by_cases hxi : x = i
        · rw [if_pos hxi] at hx
          exact absurd hx (by simp)
        · rw [if_neg hxi] at hx
          exact hwf x c hx
      have hsome1 : ∀ j ∈ rest, (assocGet (removeKey locked i) j).isSome := by
        intro j hj
        rw [hget1 j]
        have hji : ¬ j = i := fun hh => hnd.1 (hh ▸ hj)
        rw [if_neg hji]
        exact hsome j (by simp [hj])
      obtain ⟨locked', out, h1, h2, h3, h4⟩ :=
        ih (removeKey locked i) (ret ++ [i]) hnd.2 hwf1 hsome1
      refine ⟨locked', out, by rw [hstep]; exact h1, h2, ?_, ?_⟩
      · intro x
        rw [h3 x]
        by_cases hx : x = i
        · subst hx
          simp [hnd.1, lockedCount, hget1, hcnt, hc0]
        · have hxr : (x ∈ i :: rest) ↔ x ∈ rest := by simp [List.mem_cons, hx]
          simp [hxr, lockedCount, hget1, hx]
      · intro x
        rw [h4 x]
        by_cases hx : x = i
        · subst hx
          have hnr : x ∉ rest := hnd.1
          simp [hnr, lockedCount, hget1, hcnt, hc0]
        · have hxr : (x ∈ i :: rest) ↔ x ∈ rest := by simp [List.mem_cons, hx]
          simp [hxr, lockedCount, hget1, hx]

end NFB

namespace NFB

open Track (assocGet)

theorem lockedCount_zero_iff (l : List (Nat × Nat)) (hwf : lockedWF l) (x : Nat) :
    lockedCount l x = 0 ↔ ¬ (assocGet l x).isSome := by
  cases hg : assocGet l x with
  | none => simp [lockedCount, hg]
  | some c =>
    have := hwf x c hg
    simp [lockedCount, hg]
    omega

/-- C9: `lock_non_fungibles(S)` followed by `unlock_non_fungibles(S)` restores
the Liquid and Locked fields: locking moves each id of `S` that is not already
locked out of the liquid set and increments each id's lock count by one;
unlocking decrements each count, returning an id to the liquid set exactly
when its count reaches zero — so afterwards the liquid set has the same
members and every id has its original lock count. -/
theorem C9_lock_then_unlock_restores (s : NFBucketState) (ids : List Nat)
    (hids : ids.Nodup) (hliq : s.liquid.Nodup) (hwf : lockedWF s.locked)
    (hsub : ∀ i ∈ ids, ¬(assocGet s.locked i).isSome → i ∈ s.liquid) :
    ∃ s1 s2, lock_non_fungibles s ids = some s1 ∧
      unlock_non_fungibles s1 ids = some s2 ∧
      (∀ x, lockedCount s1.locked x
          = lockedCount s.locked x + (if x ∈ ids then 1 else 0)) ∧
      (∀ x, x ∈ s1.liquid ↔
          x ∈ s.liquid ∧ ¬(x ∈ ids ∧ ¬(assocGet s.locked x).isSome)) ∧
      (∀ x, x ∈ s2.liquid ↔ x ∈ s.liquid) ∧
      (∀ x, lockedCount s2.locked x = lockedCount s.locked x) := by
  have hdnd : (ids.filter fun i => !(assocGet s.locked i).isSome).Nodup :=
    hids.filter _
  have hdmem : ∀ x, (x ∈ ids.filter fun i => !(assocGet s.locked i).isSome) ↔
      x ∈ ids ∧ ¬(assocGet s.locked x).isSome := by
    intro x
    simp [List.mem_filter]
  have hdliq : ∀ i ∈ (ids.filter fun i => !(assocGet s.locked i).isSome), i ∈ s.liquid :=
    fun i hi => hsub i ((hdmem i).mp hi).1 ((hdmem i).mp hi).2
  obtain ⟨liquid', ht1, ht2, ht3⟩ :=
    take_by_ids_spec (ids.filter fun i => !(assocGet s.locked i).isSome)
      s.liquid hliq hdnd hdliq
  have hcount1 := lockFold_count ids s.locked hids
  have hwf1 : lockedWF (lockFold s.locked ids) := lockFold_wf ids s.locked hwf
  have hsome1 : ∀ i ∈ ids, (assocGet (lockFold s.locked ids) i).isSome := by
    intro i hi
    have hpos : 1 ≤ lockedCount (lockFold s.locked ids) i := by
      rw [hcount1 i]
      simp [hi]
    cases hg : assocGet (lockFold s.locked ids) i with
    | none => rw [show lockedCount (lockFold s.locked ids) i = 0 by
        simp [lockedCount, hg]] at hpos; omega
    | some c => simp
  obtain ⟨locked2, out, hu1, hu2, hu3, hu4⟩ :=
    unlockLoop_spec ids (lockFold s.locked ids) [] hids hwf1 hsome1
  refine ⟨⟨liquid', lockFold s.locked ids⟩, ⟨putLiquid liquid' out, locked2⟩, ?_, ?_, ?_, ?_, ?_, ?_⟩
  · unfold lock_non_fungibles
    dsimp only
    rw [ht1]
  · unfold unlock_non_fungibles
    dsimp only
    rw [hu1]
  · exact hcount1
  · intro x
    dsimp only
    rw [ht3 x, hdmem x]
  · intro x
    dsimp only
    rw [putLiquid_mem, ht3 x, hdmem x, hu4 x]
    have hzero := lockedCount_zero_iff s.locked hwf x
    constructor
    · rintro (⟨hxl, _⟩ | (h | ⟨hxi, hc⟩))
      · exact hxl
      · exact absurd h (by simp)
      · rw [hcount1 x, if_pos hxi] at hc
        exact hsub x hxi (hzero.mp (by omega))
    · intro hxl
      by_cases hxd : x ∈ ids ∧ ¬(assocGet s.locked x).isSome
      · refine Or.inr (Or.inr ⟨hxd.1, ?_⟩)
        rw [hcount1 x, if_pos hxd.1]
        have := hzero.mpr hxd.2
        omega
      · exact Or.inl ⟨hxl, hxd⟩
  · intro x
    dsimp only
    rw [hu3 x, hcount1 x]
    by_cases hx : x ∈ ids <;> simp [hx]

end NFB

namespace NFB

open Track (assocGet)

/-- Concrete bucket for the C9 witness: liquid ids 1,2,3; id 3 locked twice. -/
def c9s : NFBucketState := { liquid := [1, 2, 3], locked := [(3, 2)] }

/-- Witness for C9: locking then unlocking ids 1 and 3 on `c9s`. -/
theorem C9_lock_then_unlock_restores_witness :
    ([1, 3] : List Nat).Nodup ∧
    (∃ s1 s2, lock_non_fungibles c9s [1, 3] = some s1 ∧
      unlock_non_fungibles s1 [1, 3] = some s2 ∧
      (∀ x, lockedCount s1.locked x
          = lockedCount c9s.locked x + (if x ∈ [1, 3] then 1 else 0)) ∧
      (∀ x, x ∈ s1.liquid ↔
          x ∈ c9s.liquid ∧ ¬(x ∈ [1, 3] ∧ ¬(assocGet c9s.locked x).isSome)) ∧
      (∀ x, x ∈ s2.liquid ↔ x ∈ c9s.liquid) ∧
      (∀ x, lockedCount s2.locked x = lockedCount c9s.locked x)) :=
  ⟨by decide,
    C9_lock_then_unlock_restores c9s [1, 3] (by decide) (by decide)
      (by
        intro x c h
        by_cases h3 : (3 : Nat) = x <;> simp [Track.assocGet, h3] at h
        omega)
      (by decide)⟩

end NFB

namespace SysGlob

/-- Modelled from the spec: the well-known package addresses referenced by
`globalize` (their concrete values are not among the provided sources; only
their distinctness matters). -/
def ACCOUNT_PACKAGE : Nat := 1

/-- Modelled from the spec (see `ACCOUNT_PACKAGE`). -/
def RESOURCE_PACKAGE : Nat := 2

/-- Modelled from the spec (see `ACCOUNT_PACKAGE`). -/
def EPOCH_MANAGER_PACKAGE : Nat := 3

/-- Modelled from the spec (see `ACCOUNT_PACKAGE`). -/
def CLOCK_PACKAGE : Nat := 4

/-- Modelled from the spec (see `ACCOUNT_PACKAGE`). -/
def ACCESS_CONTROLLER_PACKAGE : Nat := 5

/-- Modelled from the spec (see `ACCOUNT_PACKAGE`). -/
def IDENTITY_PACKAGE : Nat := 6

/-- Modelled from the spec (see `ACCOUNT_PACKAGE`). -/
def ACCESS_RULES_MODULE_PACKAGE : Nat := 7

/-- Modelled from the spec (see `ACCOUNT_PACKAGE`). -/
def METADATA_MODULE_PACKAGE : Nat := 8

/-- Modelled from the spec (see `ACCOUNT_PACKAGE`). -/
def ROYALTY_MODULE_PACKAGE : Nat := 9

/-- Blueprint name constants (opaque strings). -/
def PACKAGE_BLUEPRINT : String := "Package"

/-- Blueprint name constant. -/
def FUNGIBLE_RESOURCE_MANAGER_BLUEPRINT : String := "FungibleResourceManager"

/-- Blueprint name constant. -/
def NON_FUNGIBLE_RESOURCE_MANAGER_BLUEPRINT : String := "NonFungibleResourceManager"

/-- Blueprint name constant. -/
def EPOCH_MANAGER_BLUEPRINT : String := "EpochManager"

/-- Blueprint name constant. -/
def VALIDATOR_BLUEPRINT : String := "Validator"

/-- Blueprint name constant. -/
def CLOCK_BLUEPRINT : String := "Clock"

/-- Blueprint name constant. -/
def ACCESS_CONTROLLER_BLUEPRINT : String := "AccessController"

/-- Blueprint name constant. -/
def ACCOUNT_BLUEPRINT : String := "Account"

/-- Blueprint name constant. -/
def IDENTITY_BLUEPRINT : String := "Identity"

/-- Blueprint name constant. -/
def ACCESS_RULES_BLUEPRINT : String := "AccessRules"

/-- Blueprint name constant. -/
def METADATA_BLUEPRINT : String := "Metadata"

/-- Blueprint name constant. -/
def COMPONENT_ROYALTY_BLUEPRINT : String := "ComponentRoyalty"

/-- `Blueprint` (package address + blueprint name). -/
structure Blueprint where
  package_address : Nat
  blueprint_name : String
deriving Repr, DecidableEq

/-- `Blueprint::new`. -/
def Blueprint.new (package_address : Nat) (blueprint_name : String) : Blueprint :=
  { package_address, blueprint_name }

/-- `ObjectInfo` (the fields `globalize` consults). -/
structure ObjectInfo where
  blueprint : Blueprint
  global : Bool
  outer_object : Option Nat
deriving Repr, DecidableEq

/-- `TypeInfoSubstate` from `system/node_modules/type_info`. -/
inductive TypeInfoSubstate
  | Object (info : ObjectInfo)
  | KeyValueStore (schema : Nat)
  | Index
  | SortedIndex
deriving Repr, DecidableEq

/-- A substate value: a `TypeInfoSubstate` or an opaque payload. -/
inductive SVal
  | typeInfo (t : TypeInfoSubstate)
  | raw (v : Nat)
deriving Repr, DecidableEq

/-- `SysModuleId` from `radix-engine-interface/src/types/node_layout.rs`. -/
inductive SysModuleId
  | TypeInfo
  | Metadata
  | Royalty
  | AccessRules
  | Object
  | Virtualized
deriving Repr, DecidableEq

/-- The `u8` repr of a `SysModuleId` (its `ModuleId`). -/
def SysModuleId.toNat : SysModuleId → Nat
  | .TypeInfo => 0
  | .Metadata => 1
  | .Royalty => 2
  | .AccessRules => 3
  | .Object => 4
  | .Virtualized => 5

/-- The key of `TypeInfoOffset::TypeInfo`. -/
def TYPE_INFO_KEY : Nat := 0

/-- Modelled from the spec: `ObjectModuleId` (the module map keys `{self,
Metadata, Royalty, AccessRules}`; the enum itself is not among the provided
sources). -/
inductive ObjectModuleId
  | SELF
  | Metadata
  | Royalty
  | AccessRules
deriving Repr, DecidableEq

/-- `EntityType` (the global variants used by `globalize`,
from `radix-engine-common/src/types/entity_type.rs`). -/
inductive EntityType
  | GlobalPackage
  | GlobalFungibleResource
  | GlobalNonFungibleResource
  | GlobalEpochManager
  | GlobalValidator
  | GlobalClock
  | GlobalAccessController
  | GlobalAccount
  | GlobalIdentity
  | GlobalGenericComponent
deriving Repr, DecidableEq

/-- `SystemError` (the variants `globalize` produces). -/
inductive SystemError
  | MissingModule (module_id : ObjectModuleId)
  | InvalidModuleSet (module_ids : List ObjectModuleId)
  | InvalidModuleType (expected_blueprint actual_blueprint : Blueprint)
  | CannotGlobalize
  | NotAnObject
deriving Repr, DecidableEq

/-- `RuntimeError` as seen by `globalize`: a system error, a kernel-level
failure (e.g. `kernel_drop_node` on an inaccessible node), or a panic
(`unwrap` on `None`). -/
inductive GlobError
  | SystemError (e : SystemError)
  | KernelError
  | Panic
deriving Repr, DecidableEq

/-- A node's substates: `ModuleId → (key → value)`. -/
abbrev NodeSubstates := List (Nat × List (Nat × SVal))

/-- The kernel heap visible to `globalize`: node id → substates. -/
abbrev Heap := List (Nat × NodeSubstates)

/-- Module-map lookup (`BTreeMap<ObjectModuleId, NodeId>`). -/
def omGet : List (ObjectModuleId × Nat) → ObjectModuleId → Option Nat
  | [], _ => none
  | p :: rest, k => if p.1 = k then some p.2 else omGet rest k

/-- Modelled from the spec (§4.2 `drop_node`): dropping a node returns its
modules and removes it; `none` models the kernel error on a missing node. -/
def kernel_drop_node (h : Heap) (n : Nat) : Option (NodeSubstates × Heap) :=
  match Track.assocGet h n with
  | none => none
  | some subs => some (subs, h.filter fun p => p.1 != n)

/-- Modelled from the spec (§4.2 `create_node`). -/
def kernel_create_node (h : Heap) (n : Nat) (subs : NodeSubstates) : Heap :=
  Track.assocSet h n subs

/-- `TypeInfoBlueprint::get_type`: read the TypeInfo substate of a node. -/
def get_type (h : Heap) (n : Nat) : Option TypeInfoSubstate :=
  match Track.assocGet h n with
  | none => none
  | some subs =>
    match Track.assocGet subs SysModuleId.TypeInfo.toNat with
    | none => none
    | some msubs =>
      match Track.assocGet msubs TYPE_INFO_KEY with
      | some (.typeInfo t) => some t
      | _ => none

/-- `SystemService::get_object_info`. -/
def get_object_info (h : Heap) (n : Nat) : Except GlobError ObjectInfo :=
  match get_type h n with
  | none => .error .KernelError
  | some (.Object info) => .ok info
  | some _ => .error (.SystemError .NotAnObject)

/-- The `match (package_address, blueprint_name)` table of `globalize` that
picks the entity type of the new global address. -/
def entity_type_for_blueprint (b : Blueprint) : EntityType :=
  if b.package_address = ACCOUNT_PACKAGE ∧ b.blueprint_name = PACKAGE_BLUEPRINT then
    .GlobalPackage
  else if b.package_address = RESOURCE_PACKAGE ∧
      b.blueprint_name = FUNGIBLE_RESOURCE_MANAGER_BLUEPRINT then
    .GlobalFungibleResource
  else if b.package_address = RESOURCE_PACKAGE ∧
      b.blueprint_name = NON_FUNGIBLE_RESOURCE_MANAGER_BLUEPRINT then
    .GlobalNonFungibleResource
  else if b.package_address = EPOCH_MANAGER_PACKAGE ∧
      b.blueprint_name = EPOCH_MANAGER_BLUEPRINT then
    .GlobalEpochManager
  else if b.package_address = EPOCH_MANAGER_PACKAGE ∧
      b.blueprint_name = VALIDATOR_BLUEPRINT then
    .GlobalValidator
  else if b.package_address = CLOCK_PACKAGE ∧ b.blueprint_name = CLOCK_BLUEPRINT then
    .GlobalClock
  else if b.package_address = ACCESS_CONTROLLER_PACKAGE ∧
      b.blueprint_name = ACCESS_CONTROLLER_BLUEPRINT then
    .GlobalAccessController
  else if b.package_address = ACCOUNT_PACKAGE ∧ b.blueprint_name = ACCOUNT_BLUEPRINT then
    .GlobalAccount
  else if b.package_address = IDENTITY_PACKAGE ∧ b.blueprint_name = IDENTITY_BLUEPRINT then
    .GlobalIdentity
  else .GlobalGenericComponent

/-- The canonical blueprint each attached module must have. -/
def expected_blueprint : ObjectModuleId → Blueprint
  | .AccessRules => Blueprint.new ACCESS_RULES_MODULE_PACKAGE ACCESS_RULES_BLUEPRINT
  | .Metadata => Blueprint.new METADATA_MODULE_PACKAGE METADATA_BLUEPRINT
  | .Royalty => Blueprint.new ROYALTY_MODULE_PACKAGE COMPONENT_ROYALTY_BLUEPRINT
  | .SELF => Blueprint.new 0 ""

/-- The `SysModuleId` whose substates are taken from the dropped module node
(`Object` for AccessRules/Royalty, `Virtualized` for Metadata). -/
def source_module : ObjectModuleId → Nat
  | .AccessRules => SysModuleId.Object.toNat
  | .Metadata => SysModuleId.Virtualized.toNat
  | .Royalty => SysModuleId.Object.toNat
  | .SELF => SysModuleId.Object.toNat

/-- The canonical `SysModuleId` the moved substates are re-inserted under. -/
def target_module : ObjectModuleId → Nat
  | .AccessRules => SysModuleId.AccessRules.toNat
  | .Metadata => SysModuleId.Metadata.toNat
  | .Royalty => SysModuleId.Royalty.toNat
  | .SELF => SysModuleId.Object.toNat

/-- One arm of the `for (module_id, node_id) in modules` loop of
`globalize_with_address`: check the module node's blueprint, drop it, and move
its source module's substates into `node_substates` under the canonical
module id. -/
def moveModule (h : Heap) (node_substates : NodeSubstates) (mid : ObjectModuleId)
    (nid : Nat) : Except GlobError (Heap × NodeSubstates) :=
  match get_object_info h nid with
  | .error e => .error e
  | .ok info =>
    if info.blueprint ≠ expected_blueprint mid then
      .error (.SystemError (.InvalidModuleType (expected_blueprint mid) info.blueprint))
    else
      match kernel_drop_node h nid with
      | none => .error .KernelError
      | some (subs, h1) =>
        match Track.assocGet subs (source_module mid) with
        | none => .error .Panic
        | some msubs =>
          .ok (h1, Track.assocSet node_substates (target_module mid) msubs)

/-- The `BTreeSet` of standard object modules. -/
def standard_object : List ObjectModuleId :=
  [.SELF, .Metadata, .Royalty, .AccessRules]

/-- `module_ids != standard_object` (as sets). -/
def isStandardSet (module_ids : List ObjectModuleId) : Prop :=
  (∀ m ∈ standard_object, m ∈ module_ids) ∧ ∀ m ∈ module_ids, m ∈ standard_object

instance (module_ids : List ObjectModuleId) : Decidable (isStandardSet module_ids) := by
  unfold isStandardSet; infer_instance

/-- `SystemService::globalize_with_address`.  The three attached modules are
processed in the `BTreeMap` key order `Metadata < Royalty < AccessRules`
(modelled from the spec: `ObjectModuleId`'s declaration order). -/
def globalize_with_address (h : Heap) (modules : List (ObjectModuleId × Nat))
    (address : Nat) : Except GlobError Heap :=
  if ¬ isStandardSet (modules.map Prod.fst) then
    .error (.SystemError (.InvalidModuleSet (modules.map Prod.fst)))
  else
    match omGet modules .SELF with
    | none => .error (.SystemError (.MissingModule .SELF))
    | some node_id =>
      match kernel_drop_node h node_id with
      | none => .error .KernelError
      | some (node_substates, h1) =>
        match Track.assocGet node_substates SysModuleId.TypeInfo.toNat with
        | none => .error .Panic
        | some ti_subs =>
          match Track.assocGet ti_subs TYPE_INFO_KEY with
          | none => .error .Panic
          | some (.raw _) => .error .Panic
          | some (.typeInfo t) =>
            match t with
            | .Object info =>
              if info.global then .error (.SystemError .CannotGlobalize)
              else
                match omGet modules .Metadata with
                | none => .error .Panic
                | some mnid =>
                  match moveModule h1
                      (Track.assocSet node_substates SysModuleId.TypeInfo.toNat
                        (Track.assocSet ti_subs TYPE_INFO_KEY
                          (.typeInfo (.Object ⟨info.blueprint, true, info.outer_object⟩))))
                      .Metadata mnid with
                  | .error e => .error e
                  | .ok (h2, ns2) =>
                    match omGet modules .Royalty with
                    | none => .error .Panic
                    | some rnid =>
                      match moveModule h2 ns2 .Royalty rnid with
                      | .error e => .error e
                      | .ok (h3, ns3) =>
                        match omGet modules .AccessRules with
                        | none => .error .Panic
                        | some anid =>
                          match moveModule h3 ns3 .AccessRules anid with
                          | .error e => .error e
                          | .ok (h4, ns4) =>
                            .ok (kernel_create_node h4 address ns4)
            | _ => .error (.SystemError .CannotGlobalize)

/-- `SystemService::globalize`: read the SELF node's type info, pick the
entity type from its blueprint, allocate the global address, and delegate to
`globalize_with_address`. -/
def globalize (h : Heap) (modules : List (ObjectModuleId × Nat))
    (alloc : EntityType → Nat) : Except GlobError (Nat × Heap) :=
  match omGet modules .SELF with
  | none => .error (.SystemError (.MissingModule .SELF))
  | some node_id =>
    match get_type h node_id with
    | none => .error .KernelError
    | some (.Object info) =>
      if info.global then .error (.SystemError .CannotGlobalize)
      else
        match globalize_with_address h modules
            (alloc (entity_type_for_blueprint info.blueprint)) with
        | .error e => .error e
        | .ok h' => .ok (alloc (entity_type_for_blueprint info.blueprint), h')
    | some _ => .error (.SystemError .CannotGlobalize)

/-- `get_object_info` never reports `InvalidModuleType` itself. -/
lemma get_object_info_error_shape (h : Heap) (n : Nat) (e a : Blueprint) :
    get_object_info h n ≠ .error (.SystemError (.InvalidModuleType e a)) := by
  unfold get_object_info
  cases hgt : get_type h n with
  | none => simp
  | some t => cases t <;> simp

/-- `get_object_info` only fails with `KernelError` or `NotAnObject`. -/
lemma get_object_info_error_cases (h : Heap) (n : Nat) (er : GlobError) :
    get_object_info h n = .error er →
    er = .KernelError ∨ er = .SystemError .NotAnObject := by
  unfold get_object_info
  cases hgt : get_type h n with
  | none =>
    intro H
    dsimp only at H
    rw [Except.error.injEq] at H
    exact Or.inl H.symm
  | some t =>
    cases t with
    | Object info =>
      intro H
      simp at H
    | KeyValueStore s =>
      intro H
      dsimp only at H
      rw [Except.error.injEq] at H
      exact Or.inr H.symm
    | Index =>
      intro H
      dsimp only at H
      rw [Except.error.injEq] at H
      exact Or.inr H.symm
    | SortedIndex =>
      intro H
      dsimp only at H
      rw [Except.error.injEq] at H
      exact Or.inr H.symm

/-- `moveModule` never reports `InvalidModuleSet`. -/
lemma moveModule_no_invalid_set (h : Heap) (ns : NodeSubstates)
    (mid : ObjectModuleId) (nid : Nat) (ms : List ObjectModuleId) :
    moveModule h ns mid nid ≠ .error (.SystemError (.InvalidModuleSet ms)) := by
  intro H
  unfold moveModule at H
  cases hgo : get_object_info h nid with
  | error er =>
    rw [hgo] at H
    dsimp only at H
    rw [Except.error.injEq] at H
    rcases get_object_info_error_cases h nid er hgo with h1 | h1 <;> simp [h1] at H
  | ok info =>
    rw [hgo] at H
    dsimp only at H
    (repeat' split at H) <;> simp_all

/-- C8: `globalize_with_address` fails with `InvalidModuleSet` exactly when
the module map's key set is not `{SELF, Metadata, Royalty, AccessRules}`; an
attached module whose blueprint is not the canonical module blueprint fails
its processing step with `InvalidModuleType` (and the error propagates out of
the call); a SELF node that is already global or not an object fails the call
with `CannotGlobalize`; otherwise the four source nodes are dropped, their
substates re-inserted under the supplied address under the canonical module
ids with the TypeInfo `global` flag set to `true`, and `globalize` allocates
the address with the entity type determined by the SELF blueprint's
(package, blueprint) pair before delegating. -/
theorem C8_globalize_characterization :
    (∀ (h : Heap) (modules : List (ObjectModuleId × Nat)) (address : Nat),
      (¬ isStandardSet (modules.map Prod.fst) →
        globalize_with_address h modules address =
          .error (.SystemError (.InvalidModuleSet (modules.map Prod.fst)))) ∧
      (isStandardSet (modules.map Prod.fst) →
        ∀ ms, globalize_with_address h modules address ≠
          .error (.SystemError (.InvalidModuleSet ms)))) ∧
    (∀ (h : Heap) (ns : NodeSubstates) (mid : ObjectModuleId) (nid : Nat)
        (e a : Blueprint),
      moveModule h ns mid nid = .error (.SystemError (.InvalidModuleType e a)) ↔
        ∃ info, get_object_info h nid = .ok info ∧
          info.blueprint ≠ expected_blueprint mid ∧
          e = expected_blueprint mid ∧ a = info.blueprint) ∧
    (∀ (h : Heap) (ns : NodeSubstates) (mid : ObjectModuleId) (nid : Nat)
        (h2 : Heap) (ns2 : NodeSubstates),
      moveModule h ns mid nid = .ok (h2, ns2) ↔
        ∃ info subs msubs, get_object_info h nid = .ok info ∧
          info.blueprint = expected_blueprint mid ∧
          kernel_drop_node h nid = some (subs, h2) ∧
          Track.assocGet subs (source_module mid) = some msubs ∧
          ns2 = Track.assocSet ns (target_module mid) msubs) ∧
    (∀ (h : Heap) (modules : List (ObjectModuleId × Nat)) (address nid : Nat)
        (node_substates : NodeSubstates) (h1 : Heap)
        (ti_subs : List (Nat × SVal)) (t : TypeInfoSubstate),
      isStandardSet (modules.map Prod.fst) →
      omGet modules .SELF = some nid →
      kernel_drop_node h nid = some (node_substates, h1) →
      Track.assocGet node_substates SysModuleId.TypeInfo.toNat = some ti_subs →
      Track.assocGet ti_subs TYPE_INFO_KEY = some (.typeInfo t) →
      (∀ info, t = .Object info → info.global = true) →
      globalize_with_address h modules address =
        .error (.SystemError .CannotGlobalize)) ∧
    (∀ (h : Heap) (modules : List (ObjectModuleId × Nat)) (address nid : Nat)
        (node_substates : NodeSubstates) (h1 : Heap)
        (ti_subs : List (Nat × SVal)) (info : ObjectInfo)
        (mnid rnid anid : Nat) (ns1 : NodeSubstates),
      isStandardSet (modules.map Prod.fst) →
      omGet modules .SELF = some nid →
      kernel_drop_node h nid = some (node_substates, h1) →
      Track.assocGet node_substates SysModuleId.TypeInfo.toNat = some ti_subs →
      Track.assocGet ti_subs TYPE_INFO_KEY = some (.typeInfo (.Object info)) →
      info.global = false →
      omGet modules .Metadata = some mnid →
      omGet modules .Royalty = some rnid →
      omGet modules .AccessRules = some anid →
      ns1 = Track.assocSet node_substates SysModuleId.TypeInfo.toNat
        (Track.assocSet ti_subs TYPE_INFO_KEY
          (.typeInfo (.Object ⟨info.blueprint, true, info.outer_object⟩))) →
      (∀ e, moveModule h1 ns1 .Metadata mnid = .error e →
        globalize_with_address h modules address = .error e) ∧
      (∀ h2 ns2 e, moveModule h1 ns1 .Metadata mnid = .ok (h2, ns2) →
        moveModule h2 ns2 .Royalty rnid = .error e →
        globalize_with_address h modules address = .error e) ∧
      (∀ h2 ns2 h3 ns3 e, moveModule h1 ns1 .Metadata mnid = .ok (h2, ns2) →
        moveModule h2 ns2 .Royalty rnid = .ok (h3, ns3) →
        moveModule h3 ns3 .AccessRules anid = .error e →
        globalize_with_address h modules address = .error e) ∧
      (∀ h2 ns2 h3 ns3 h4 ns4,
        moveModule h1 ns1 .Metadata mnid = .ok (h2, ns2) →
        moveModule h2 ns2 .Royalty rnid = .ok (h3, ns3) →
        moveModule h3 ns3 .AccessRules anid = .ok (h4, ns4) →
        globalize_with_address h modules address =
          .ok (kernel_create_node h4 address ns4))) ∧
    (∀ (h : Heap) (modules : List (ObjectModuleId × Nat))
        (alloc : EntityType → Nat) (nid : Nat) (info : ObjectInfo),
      omGet modules .SELF = some nid →
      get_type h nid = some (.Object info) →
      info.global = false →
      globalize h modules alloc =
        (globalize_with_address h modules
            (alloc (entity_type_for_blueprint info.blueprint))).map
          (fun h2 => (alloc (entity_type_for_blueprint info.blueprint), h2))) ∧
    (∀ (h : Heap) (modules : List (ObjectModuleId × Nat))
        (alloc : EntityType → Nat) (nid : Nat) (t : TypeInfoSubstate),
      omGet modules .SELF = some nid →
      get_type h nid = some t →
      (∀ info, t = .Object info → info.global = true) →
      globalize h modules alloc = .error (.SystemError .CannotGlobalize)) := by
  refine ⟨?_, ?_, ?_, ?_, ?_, ?_, ?_⟩
  · intro h modules address
    constructor
    · intro hns
      unfold globalize_with_address
      rw [if_pos hns]
    · intro hs ms
      intro H
      unfold globalize_with_address at H
      rw [if_neg (not_not_intro hs)] at H
      (repeat' split at H) <;> (try simp at H) <;>
        (try (subst H; exact moveModule_no_invalid_set _ _ _ _ _ (by assumption)))
  · intro h ns mid nid e a
    unfold moveModule
    cases hgo : get_object_info h nid with
    | error er =>
      dsimp only
      constructor
      · intro H
        rw [Except.error.injEq] at H
        exact absurd (by rw [hgo, H]) (get_object_info_error_shape h nid e a)
      · rintro ⟨info, hinfo, -, -, -⟩
        simp at hinfo
    | ok info =>
      dsimp only
      by_cases hbp : info.blueprint = expected_blueprint mid
      · rw [if_neg (not_not_intro hbp)]
        constructor
        · intro H
          exfalso
          (repeat' split at H) <;> simp_all
        · rintro ⟨info', hinfo', hne, -, -⟩
          rw [Except.ok.injEq] at hinfo'
          exact absurd (hinfo' ▸ hbp) hne
      · rw [if_pos hbp]
        constructor
        · intro H
          simp only [Except.error.injEq, GlobError.SystemError.injEq,
            SystemError.InvalidModuleType.injEq] at H
          exact ⟨info, rfl, hbp, H.1.symm, H.2.symm⟩
        · rintro ⟨info', hinfo', -, rfl, rfl⟩
          rw [Except.ok.injEq] at hinfo'
          rw [hinfo']
  · intro h ns mid nid h2 ns2
    unfold moveModule
    cases hgo : get_object_info h nid with
    | error er =>
      dsimp only
      constructor
      · intro H; simp at H
      · rintro ⟨info, subs, msubs, hinfo, -, -, -, -⟩
        simp at hinfo
    | ok info =>
      dsimp only
      by_cases hbp : info.blueprint = expected_blueprint mid
      · rw [if_neg (not_not_intro hbp)]
        cases hd : kernel_drop_node h nid with
        | none =>
          dsimp only
          constructor
          · intro H; simp at H
          · rintro ⟨info', subs', msubs', -, -, hdrop, -, -⟩
            simp at hdrop
        | some p =>
          obtain ⟨subs, h1⟩ := p
          dsimp only
          cases hms : Track.assocGet subs (source_module mid) with
          | none =>
            dsimp only
            constructor
            · intro H; simp at H
            · rintro ⟨info', subs', msubs', -, -, hdrop, hget, -⟩
              rw [Option.some.injEq, Prod.mk.injEq] at hdrop
              obtain ⟨h5, h6⟩ := hdrop
              rw [← h5] at hget
              rw [hms] at hget
              exact Option.noConfusion hget
          | some msubs =>
            dsimp only
            constructor
            · intro H
              rw [Except.ok.injEq, Prod.mk.injEq] at H
              exact ⟨info, subs, msubs, rfl, hbp, by rw [H.1], hms, H.2.symm⟩
            · rintro ⟨info', subs', msubs', -, -, hdrop, hget, hns2⟩
              rw [Option.some.injEq, Prod.mk.injEq] at hdrop
              obtain ⟨h5, h6⟩ := hdrop
              rw [← h5] at hget
              rw [hms, Option.some.injEq] at hget
              rw [Except.ok.injEq, Prod.mk.injEq]
              exact ⟨h6, by rw [hns2, ← hget]⟩
      · rw [if_pos hbp]
        constructor
        · intro H; simp at H
        · rintro ⟨info', subs', msubs', hinfo', hbp', -, -, -⟩
          rw [Except.ok.injEq] at hinfo'
          exact absurd (hinfo' ▸ hbp') hbp
  · intro h modules address nid node_substates h1 ti_subs t hset hself hdrop hti
      htik hglob
    unfold globalize_with_address
    rw [if_neg (not_not_intro hset), hself]
    dsimp only
    rw [hdrop]
    dsimp only
    rw [hti]
    dsimp only
    rw [htik]
    dsimp only
    cases t with
    | Object info =>
      dsimp only
      rw [if_pos (hglob info rfl)]
    | KeyValueStore s => rfl
    | Index => rfl
    | SortedIndex => rfl
  · intro h modules address nid node_substates h1 ti_subs info mnid rnid anid ns1
      hset hself hdrop hti htik hglob hm hr ha hns1
    have hmain : globalize_with_address h modules address =
        match moveModule h1 ns1 .Metadata mnid with
        | .error e => .error e
        | .ok (h2, ns2) =>
          match moveModule h2 ns2 .Royalty rnid with
          | .error e => .error e
          | .ok (h3, ns3) =>
            match moveModule h3 ns3 .AccessRules anid with
            | .error e => .error e
            | .ok (h4, ns4) => .ok (kernel_create_node h4 address ns4) := by
      unfold globalize_with_address
      rw [if_neg (not_not_intro hset), hself]
      dsimp only
      rw [hdrop]
      dsimp only
      rw [hti]
      dsimp only
      rw [htik]
      dsimp only
      rw [if_neg (by simp [hglob])]
      rw [hm]
      dsimp only
      rw [← hns1]
      simp only [hr, ha]
    refine ⟨?_, ?_, ?_, ?_⟩
    · intro e hmv
      rw [hmain, hmv]
    · intro h2 ns2 e hmv1 hmv2
      rw [hmain, hmv1]
      dsimp only
      rw [hmv2]
    · intro h2 ns2 h3 ns3 e hmv1 hmv2 hmv3
      rw [hmain, hmv1]
      dsimp only
      rw [hmv2]
      dsimp only
      rw [hmv3]
    · intro h2 ns2 h3 ns3 h4 ns4 hmv1 hmv2 hmv3
      rw [hmain, hmv1]
      dsimp only
      rw [hmv2]
      dsimp only
      rw [hmv3]
  · intro h modules alloc nid info hself hgt hglob
    unfold globalize
    rw [hself]
    dsimp only
    rw [hgt]
    dsimp only
    rw [if_neg (by simp [hglob])]
    cases hg : globalize_with_address h modules
        (alloc (entity_type_for_blueprint info.blueprint)) with
    | error e => rfl
    | ok h9 => rfl
  · intro h modules alloc nid t hself hgt ht
    unfold globalize
    rw [hself]
    dsimp only
    rw [hgt]
    cases t with
    | Object info =>
      dsimp only
      rw [if_pos (ht info rfl)]
    | KeyValueStore s => rfl
    | Index => rfl
    | SortedIndex => rfl

/-- A concrete SELF object: an `Account` blueprint, not yet global. -/
def c8selfInfo : ObjectInfo :=
  ⟨Blueprint.new ACCOUNT_PACKAGE ACCOUNT_BLUEPRINT, false, none⟩

/-- A concrete metadata module object with the canonical blueprint. -/
def c8metaInfo : ObjectInfo :=
  ⟨Blueprint.new METADATA_MODULE_PACKAGE METADATA_BLUEPRINT, false, none⟩

/-- A concrete royalty module object with the canonical blueprint. -/
def c8royInfo : ObjectInfo :=
  ⟨Blueprint.new ROYALTY_MODULE_PACKAGE COMPONENT_ROYALTY_BLUEPRINT, false, none⟩

/-- A concrete access-rules module object with the canonical blueprint. -/
def c8arInfo : ObjectInfo :=
  ⟨Blueprint.new ACCESS_RULES_MODULE_PACKAGE ACCESS_RULES_BLUEPRINT, false, none⟩

/-- A four-node heap: SELF (node 10) plus one node per attached module. -/
def c8heap : Heap :=
  [ (10, [(0, [(0, SVal.typeInfo (.Object c8selfInfo))]), (4, [(0, SVal.raw 42)])]),
    (11, [(0, [(0, SVal.typeInfo (.Object c8metaInfo))]), (5, [(0, SVal.raw 1)])]),
    (12, [(0, [(0, SVal.typeInfo (.Object c8royInfo))]), (4, [(0, SVal.raw 2)])]),
    (13, [(0, [(0, SVal.typeInfo (.Object c8arInfo))]), (4, [(0, SVal.raw 3)])]) ]

/-- The standard module map over the four nodes of `c8heap`. -/
def c8modules : List (ObjectModuleId × Nat) :=
  [(.SELF, 10), (.Metadata, 11), (.Royalty, 12), (.AccessRules, 13)]

/-- An allocator handing out address 99 for global accounts. -/
def c8alloc : EntityType → Nat := fun et => if et = .GlobalAccount then 99 else 0

/-- The SELF node's substates. -/
def c8selfNS : NodeSubstates :=
  [(0, [(0, SVal.typeInfo (.Object c8selfInfo))]), (4, [(0, SVal.raw 42)])]

/-- The heap after dropping the SELF node. -/
def c8h1 : Heap := c8heap.drop 1

/-- The SELF node's TypeInfo module. -/
def c8tiSubs : List (Nat × SVal) := [(0, SVal.typeInfo (.Object c8selfInfo))]

/-- The SELF object info with the global flag set. -/
def c8selfTrue : ObjectInfo :=
  ⟨Blueprint.new ACCOUNT_PACKAGE ACCOUNT_BLUEPRINT, true, none⟩

/-- The SELF substates with the TypeInfo global flag flipped. -/
def c8ns1 : NodeSubstates :=
  [(0, [(0, SVal.typeInfo (.Object c8selfTrue))]), (4, [(0, SVal.raw 42)])]

/-- The heap after also dropping the metadata node. -/
def c8h2 : Heap := c8heap.drop 2

/-- The accumulated substates after moving the metadata module. -/
def c8ns2 : NodeSubstates := c8ns1 ++ [(1, [(0, SVal.raw 1)])]

/-- The heap after also dropping the royalty node. -/
def c8h3 : Heap := c8heap.drop 3

/-- The accumulated substates after moving the royalty module. -/
def c8ns3 : NodeSubstates := c8ns2 ++ [(2, [(0, SVal.raw 2)])]

/-- The heap after dropping all four source nodes. -/
def c8h4 : Heap := []

/-- The accumulated substates after moving all three attached modules. -/
def c8ns4 : NodeSubstates := c8ns3 ++ [(3, [(0, SVal.raw 3)])]

/-- The heap produced by globalizing `c8heap`. -/
def c8final : Heap := [(99, c8ns4)]

/-- Witness: globalizing the concrete four-node heap succeeds, allocating
address 99 (a `GlobalAccount`) and producing the expected heap. -/
theorem C8_globalize_characterization_witness :
    globalize c8heap c8modules c8alloc = .ok (99, c8final) := by
  have H := C8_globalize_characterization
  have h6 := H.2.2.2.2.2.1 c8heap c8modules c8alloc 10 c8selfInfo rfl rfl rfl
  have haddr : c8alloc (entity_type_for_blueprint c8selfInfo.blueprint) = 99 := rfl
  rw [haddr] at h6
  rw [h6]
  have h5 := H.2.2.2.2.1 c8heap c8modules 99 10 c8selfNS c8h1 c8tiSubs c8selfInfo
    11 12 13 c8ns1 (by decide) rfl rfl rfl rfl rfl rfl rfl rfl rfl
  rw [h5.2.2.2 c8h2 c8ns2 c8h3 c8ns3 c8h4 c8ns4 rfl rfl rfl]
  rfl

/-- `globalize` on an empty module map reports `MissingModule SELF` (the SELF
lookup precedes the module-set check), not `InvalidModuleSet`, even though
the key set is not the standard one. -/
theorem C8_missing_self_counterexample :
    globalize ([] : Heap) [] (fun _ => 0) =
      .error (.SystemError (.MissingModule .SELF)) ∧
    ¬ isStandardSet (([] : List (ObjectModuleId × Nat)).map Prod.fst) :=
  ⟨rfl, by decide⟩

end SysGlob
